import Mathlib

/-!
# pushing/match_stream.go: tick accumulator, ticker cache and match stream

A shallow embedding of `src/pushing/match_stream.go` (gitbitex-spot).

* `decimal.Decimal` (shopspring) is a pair of an unbounded integer coefficient and a
  base-ten exponent; `Cmp`, `Min`, `Max`, `Add` and `String` follow that library.  The
  exponent is an `int32` there and an unbounded `Int` here.
* `time.Time` is an instant with nanosecond resolution together with a location.  The
  instant is kept as nanoseconds relative to the Unix epoch; the `int64` range of the
  seconds counter of `time.Time` is not modelled.  `time.Duration` is an `int64` count of
  nanoseconds, so the product `time.Duration(granularity) * time.Minute` wraps.
* The content of one tick cell (`*models.Tick`, possibly nil) is an `Option Tick`.  The two
  cells of a stream are `TickCells`: either two cells with nil or a tick object of their
  own, or two cells that hold one and the same pointer, so that an update in place through
  one cell is seen through the other.
* `lastTickers` (a `sync.Map`) is a map from product ids to ticker messages.
* Calls to collaborators (`publish`, `lastTickers.Store`, `log.Error`, `RegisterObserver`)
  are recorded as a list of effects in the order in which the code makes them.
-/

namespace Pushing

/-! ## decimal.Decimal -/

/-- The number `value * 10 ^ exp`, as `decimal.Decimal` stores it. -/
structure Decimal where
  value : Int
  exp : Int
deriving DecidableEq, Repr

/-- The rational number a decimal denotes. -/
def Decimal.toRat (d : Decimal) : ℚ := (d.value : ℚ) * (10 : ℚ) ^ d.exp

/-- Method `rescale`: the same number with exponent `exp`; digits are cut off (quotient
truncated towards zero) when `exp` is larger than the exponent of `d`. -/
def Decimal.rescale (d : Decimal) (exp : Int) : Decimal :=
  if d.exp = exp then d
  else
    let diff := (exp - d.exp).natAbs
    let expScale : Int := 10 ^ diff
    if exp > d.exp then { value := d.value.tdiv expScale, exp := exp }
    else { value := d.value * expScale, exp := exp }

/-- Method `big.Int.Cmp`: -1, 0 or +1. -/
def bigCmp (x y : Int) : Int := if x < y then -1 else if x > y then 1 else 0

/-- Method `Cmp`: both operands are rescaled to the smaller exponent and the coefficients
are compared. -/
def Decimal.Cmp (d d2 : Decimal) : Int :=
  if d.exp = d2.exp then bigCmp d.value d2.value
  else
    let baseExp := min d.exp d2.exp
    bigCmp (d.rescale baseExp).value (d2.rescale baseExp).value

/-- Method `Add`: both operands are rescaled to the smaller exponent and the coefficients
are added. -/
def Decimal.Add (d d2 : Decimal) : Decimal :=
  let baseScale := min d.exp d2.exp
  { value := (d.rescale baseScale).value + (d2.rescale baseScale).value, exp := baseScale }

/-- Function `decimal.Min(first, rest...)`: the answer starts as `first` and is replaced by
an item that compares strictly smaller. -/
def Decimal.Min (first : Decimal) (rest : List Decimal) : Decimal :=
  rest.foldl (fun ans item => if item.Cmp ans < 0 then item else ans) first

/-- Function `decimal.Max(first, rest...)`: the answer starts as `first` and is replaced by
an item that compares strictly larger. -/
def Decimal.Max (first : Decimal) (rest : List Decimal) : Decimal :=
  rest.foldl (fun ans item => if item.Cmp ans > 0 then item else ans) first

/-- The loop of `string` that removes the zeros at the end of the fractional part. -/
def trimZeros (fractionalPart : List Char) : List Char :=
  (fractionalPart.reverse.dropWhile (fun c => c = '0')).reverse

/-- Method `string(trimTrailingZeros)`; `String()` is `string(true)`. -/
def Decimal.string (d : Decimal) (trimTrailingZeros : Bool) : String :=
  if 0 ≤ d.exp then toString (d.rescale 0).value
  else
    let str := (toString d.value.natAbs).toList
    let dExpInt := (-d.exp).toNat
    let intPart := if str.length > dExpInt then str.take (str.length - dExpInt) else ['0']
    let fractionalPart :=
      if str.length > dExpInt then str.drop (str.length - dExpInt)
      else List.replicate (dExpInt - str.length) '0' ++ str
    let fractionalPart := if trimTrailingZeros then trimZeros fractionalPart else fractionalPart
    let number := if fractionalPart.length > 0 then intPart ++ '.' :: fractionalPart else intPart
    if d.value < 0 then String.mk ('-' :: number) else String.mk number

/-! ## time.Time -/

/-- An instant (nanoseconds since 1970-01-01T00:00:00Z) and the name of its location. -/
structure Time where
  unixNano : Int
  loc : String
deriving DecidableEq, Repr

/-- Constant `unixToInternal` of package time: seconds from 0001-01-01T00:00:00Z, the zero
time, to the Unix epoch. -/
def unixToInternal : Int := 62135596800

/-- Constant `time.Minute`, in nanoseconds. -/
def Minute : Int := 60000000000

/-- Two's-complement wrap of an integer into the `int64` range. -/
def wrapInt64 (x : Int) : Int := (x + 2 ^ 63) % 2 ^ 64 - 2 ^ 63

/-- Method `UTC`: the same instant with the location set to UTC. -/
def Time.UTC (t : Time) : Time := { t with loc := "UTC" }

/-- Method `Truncate(d)`: `t` rounded down to a multiple of `d` since the zero time;
`t` itself when `d <= 0`. -/
def Time.Truncate (t : Time) (d : Int) : Time :=
  if d ≤ 0 then t
  else { t with unixNano := t.unixNano - (t.unixNano + unixToInternal * 1000000000) % d }

/-- Method `Unix`: whole seconds since the Unix epoch (rounded down). -/
def Time.Unix (t : Time) : Int := t.unixNano / 1000000000

/-! ## models.Tick and matching.MatchLog -/

/-- Modelled from the spec: the aggressor side of a trade (type `models.Side`), buy or sell. -/
inductive Side where
  | buy
  | sell
deriving DecidableEq, Repr

/-- The fields of `matching.MatchLog` that match_stream.go reads. -/
structure MatchLog where
  TradeId : Int
  Sequence : Int
  Time : Time
  ProductId : String
  Price : Decimal
  Size : Decimal
  Side : Side
  MakerOrderId : Int
  TakerOrderId : Int
deriving DecidableEq, Repr

/-- The fields of `models.Tick` that match_stream.go reads or writes. -/
structure Tick where
  Open : Decimal
  Close : Decimal
  Low : Decimal
  High : Decimal
  Volume : Decimal
  ProductId : String
  Granularity : Int
  Time : Int
deriving DecidableEq, Repr

/-! ## refreshTick -/

/-- The first statement of `refreshTick`:
`log.Time.UTC().Truncate(time.Duration(granularity) * time.Minute).Unix()`. -/
def tickTime (granularity : Int) (log : MatchLog) : Int :=
  ((log.Time.UTC).Truncate (wrapInt64 (granularity * Minute))).Unix

/-- The tick that the first branch of `refreshTick` allocates. -/
def newTick (granularity : Int) (log : MatchLog) : Tick :=
  { Open := log.Price
    Close := log.Price
    Low := log.Price
    High := log.Price
    Volume := log.Size
    ProductId := log.ProductId
    Granularity := granularity
    Time := tickTime granularity log }

/-- Function `refreshTick(tick, granularity, log)`: the argument is the content of the cell
`*tick` before the call and the result is its content after the call. -/
def refreshTick (tick : Option Tick) (granularity : Int) (log : MatchLog) : Option Tick :=
  match tick with
  | none => some (newTick granularity log)
  | some t =>
    if t.Time ≠ tickTime granularity log then some (newTick granularity log)
    else
      some { t with
        Close := log.Price
        Low := Decimal.Min t.Low [log.Price]
        High := Decimal.Max t.High [log.Price]
        Volume := t.Volume.Add log.Size }

/-- The cell `*tick` after `refreshTick` has been called for each log of a list in turn. -/
def refreshTicks (tick : Option Tick) (granularity : Int) (logs : List MatchLog) : Option Tick :=
  logs.foldl (fun t log => refreshTick t granularity log) tick

/-! ## Messages, the ticker cache and the match stream -/

/-- The message published on the match channel. -/
structure MatchMessage where
  «Type» : String
  TradeId : Int
  Sequence : Int
  Time : String
  ProductId : String
  Price : String
  Side : String
  MakerOrderId : String
  TakerOrderId : String
  Size : String
deriving DecidableEq, Repr

/-- The message published on the ticker channel and kept in the ticker cache. -/
structure TickerMessage where
  «Type» : String
  TradeId : Int
  Sequence : Int
  Time : String
  ProductId : String
  Price : String
  Side : String
  LastSize : String
  BestBid : String
  BestAsk : String
  Open24h : String
  Low24h : String
  Volume24h : String
  Volume30d : String
deriving DecidableEq, Repr

/-- What is handed to `publish`: a pointer to one of the two message kinds. -/
inductive Message where
  | matchMsg (m : MatchMessage)
  | tickerMsg (m : TickerMessage)
deriving DecidableEq, Repr

/-- The calls to collaborators, in the order in which they are made. -/
inductive Effect where
  | publish (channel : String) (msg : Message)
  | store (productId : String) (ticker : TickerMessage)
  | logError (err : String)
  | registerObserver
deriving DecidableEq, Repr

/-- Functions called by match_stream.go whose bodies lie in other packages:
`time.Time.Format(time.RFC3339)`, `models.Side.String`, `utils.I64ToA`,
`ChannelMatch.FormatWithProductId` and `ChannelTicker.FormatWithProductId`. -/
structure Helpers where
  FormatRFC3339 : Time → String
  SideString : Side → String
  I64ToA : Int → String
  MatchChannel : String → String
  TickerChannel : String → String

/-- The cells `tick24h` and `tick30d` of a stream, each a `*models.Tick`: `separate` when
each cell is nil or points to a tick object of its own, `shared` when both cells hold one
and the same non-nil pointer. -/
inductive TickCells where
  | separate (tick24h tick30d : Option Tick)
  | shared (tick : Tick)
deriving DecidableEq, Repr

/-- What the cell `tick24h` points to, none for nil. -/
def TickCells.tick24h : TickCells → Option Tick
  | TickCells.separate t24 _ => t24
  | TickCells.shared t => some t

/-- What the cell `tick30d` points to, none for nil. -/
def TickCells.tick30d : TickCells → Option Tick
  | TickCells.separate _ t30 => t30
  | TickCells.shared t => some t

/-- The call `refreshTick(&s.tick24h, granularity, log)` on the two cells.  A shared tick
of another bucket is left to the cell `tick30d` and the cell `tick24h` gets the new tick; a
shared tick of the bucket of the log is updated in place and stays shared. -/
def TickCells.refresh24h (c : TickCells) (granularity : Int) (log : MatchLog) : TickCells :=
  match c with
  | TickCells.separate t24 t30 => TickCells.separate (refreshTick t24 granularity log) t30
  | TickCells.shared t =>
    if t.Time ≠ tickTime granularity log then
      TickCells.separate (some (newTick granularity log)) (some t)
    else
      TickCells.shared { t with
        Close := log.Price
        Low := Decimal.Min t.Low [log.Price]
        High := Decimal.Max t.High [log.Price]
        Volume := t.Volume.Add log.Size }

/-- The call `refreshTick(&s.tick30d, granularity, log)` on the two cells.  A shared tick
of another bucket is left to the cell `tick24h` and the cell `tick30d` gets the new tick; a
shared tick of the bucket of the log is updated in place and stays shared. -/
def TickCells.refresh30d (c : TickCells) (granularity : Int) (log : MatchLog) : TickCells :=
  match c with
  | TickCells.separate t24 t30 => TickCells.separate t24 (refreshTick t30 granularity log)
  | TickCells.shared t =>
    if t.Time ≠ tickTime granularity log then
      TickCells.separate (some t) (some (newTick granularity log))
    else
      TickCells.shared { t with
        Close := log.Price
        Low := Decimal.Min t.Low [log.Price]
        High := Decimal.Max t.High [log.Price]
        Volume := t.Volume.Add log.Size }

/-- The fields of `MatchStream` that hold data; `sub` and `logReader` are handles whose
calls are recorded as effects. -/
structure MatchStream where
  productId : String
  bestBid : Decimal
  bestAsk : Decimal
  ticks : TickCells
deriving DecidableEq, Repr

/-- The tick that field `tick24h` points to, none for nil. -/
def MatchStream.tick24h (s : MatchStream) : Option Tick := s.ticks.tick24h

/-- The tick that field `tick30d` points to, none for nil. -/
def MatchStream.tick30d (s : MatchStream) : Option Tick := s.ticks.tick30d

/-- The process-wide `lastTickers` map: product id to the stored ticker, if any. -/
def SyncMap : Type := String → Option TickerMessage

/-- The map of a fresh process, `sync.Map{}`. -/
def SyncMap.empty : SyncMap := fun _ => none

/-- Method `Load` of `sync.Map`: the stored value, or none when the key is not found. -/
def SyncMap.Load (m : SyncMap) (key : String) : Option TickerMessage := m key

/-- Method `Store` of `sync.Map`: the value for `key` is set to `value`. -/
def SyncMap.Store (m : SyncMap) (key : String) (value : TickerMessage) : SyncMap :=
  fun k => if k = key then some value else m k

/-- Function `getLastTicker(productId)`; none is the nil result. -/
def getLastTicker (lastTickers : SyncMap) (productId : String) : Option TickerMessage :=
  match lastTickers.Load productId with
  | none => none
  | some ticker => some ticker

/-- The state after a handler has run, and the effects the handler had, oldest first. -/
structure Result where
  s : MatchStream
  lastTickers : SyncMap
  effects : List Effect

/-- Method `OnOpenLog`: does nothing. -/
def OnOpenLog {OpenLog : Type} (s : MatchStream) (lastTickers : SyncMap) (_log : OpenLog)
    (_offset : Int) : Result :=
  { s := s, lastTickers := lastTickers, effects := [] }

/-- Method `OnDoneLog`: does nothing. -/
def OnDoneLog {DoneLog : Type} (s : MatchStream) (lastTickers : SyncMap) (_log : DoneLog)
    (_offset : Int) : Result :=
  { s := s, lastTickers := lastTickers, effects := [] }

/-- Method `OnMatchLog`.  The result is none when a nil tick pointer is dereferenced while
the ticker message is built. -/
def OnMatchLog (h : Helpers) (s : MatchStream) (lastTickers : SyncMap) (log : MatchLog)
    (_offset : Int) : Option Result :=
  -- refresh tick for next ticker
  let s := { s with ticks := s.ticks.refresh24h (24 * 60) log }
  let s := { s with ticks := s.ticks.refresh30d (30 * 24 * 60) log }
  -- push match
  let pushMatch := Effect.publish (h.MatchChannel log.ProductId) (Message.matchMsg
    { «Type» := "match"
      TradeId := log.TradeId
      Sequence := log.Sequence
      Time := h.FormatRFC3339 log.Time
      ProductId := log.ProductId
      Price := log.Price.string true
      Side := h.SideString log.Side
      MakerOrderId := h.I64ToA log.MakerOrderId
      TakerOrderId := h.I64ToA log.TakerOrderId
      Size := log.Size.string true })
  -- push ticker
  match s.tick24h, s.tick30d with
  | some tick24h, some tick30d =>
    let ticker : TickerMessage :=
      { «Type» := "ticker"
        TradeId := log.TradeId
        Sequence := log.Sequence
        Time := h.FormatRFC3339 log.Time
        ProductId := log.ProductId
        Price := log.Price.string true
        Side := h.SideString log.Side
        LastSize := log.Size.string true
        BestBid := s.bestBid.string true
        BestAsk := s.bestAsk.string true
        Open24h := tick24h.Open.string true
        Low24h := tick24h.Low.string true
        Volume24h := tick24h.Volume.string true
        Volume30d := tick30d.Volume.string true }
    some
      { s := s
        lastTickers := lastTickers.Store log.ProductId ticker
        effects :=
          [pushMatch, Effect.store log.ProductId ticker,
            Effect.publish (h.TickerChannel log.ProductId) (Message.tickerMsg ticker)] }
  | _, _ => none

/-- One call of `OnMatchLog`: the stream that receives it, the log and the offset. -/
structure Call where
  s : MatchStream
  log : MatchLog
  offset : Int

/-- The cache after a sequence of `OnMatchLog` calls, made by any streams of the process
one after the other; a call that fails ends the process. -/
def cacheAfter (h : Helpers) (lastTickers : SyncMap) : List Call → SyncMap
  | [] => lastTickers
  | c :: rest =>
    match OnMatchLog h c.s lastTickers c.log c.offset with
    | some r => cacheAfter h r.lastTickers rest
    | none => lastTickers

/-- The outcome of `service.GetLastTickByProductId`: a tick pointer (possibly nil) and an
error (possibly nil). -/
structure LastTickResult where
  tick : Option Tick
  err : Option String
deriving DecidableEq, Repr

/-- Function `newMatchStream`, given the outcomes of the two lookups; the zero value of
`decimal.Decimal` stands in `bestBid` and `bestAsk`.  Each lookup is taken to return a tick
object of its own, so the two cells of the new stream are separate. -/
def newMatchStream (productId : String) (r24h r30d : LastTickResult) :
    MatchStream × List Effect :=
  let s : MatchStream :=
    { productId := productId, bestBid := ⟨0, 0⟩, bestAsk := ⟨0, 0⟩,
      ticks := TickCells.separate none none }
  -- load last 24h tick
  let e1 := match r24h.err with
    | some err => [Effect.logError err]
    | none => []
  let s := match r24h.tick with
    | some t => { s with ticks := TickCells.separate (some t) s.tick30d }
    | none => s
  -- load last 30d tick
  let e2 := match r30d.err with
    | some err => [Effect.logError err]
    | none => []
  let s := match r30d.tick with
    | some t => { s with ticks := TickCells.separate s.tick24h (some t) }
    | none => s
  (s, e1 ++ e2 ++ [Effect.registerObserver])

/-! ## Sample events -/

/-- A trade on 2019-06-01 at 10:00:00 UTC: price 100, size 1. -/
def sampleLog1 : MatchLog :=
  { TradeId := 1, Sequence := 11, Time := ⟨1559383200000000000, "UTC"⟩, ProductId := "BTC-USDT",
    Price := ⟨100, 0⟩, Size := ⟨1, 0⟩, Side := Side.buy, MakerOrderId := 7, TakerOrderId := 8 }

/-- A trade on 2019-06-01 at 10:05:00 UTC: price 105, size 2. -/
def sampleLog2 : MatchLog :=
  { TradeId := 2, Sequence := 12, Time := ⟨1559383500000000000, "UTC"⟩, ProductId := "BTC-USDT",
    Price := ⟨105, 0⟩, Size := ⟨2, 0⟩, Side := Side.sell, MakerOrderId := 9, TakerOrderId := 10 }

/-- A trade on 2019-06-02 at 10:00:00 UTC: price 90, size 1. -/
def sampleLog3 : MatchLog :=
  { TradeId := 3, Sequence := 13, Time := ⟨1559469600000000000, "UTC"⟩, ProductId := "BTC-USDT",
    Price := ⟨90, 0⟩, Size := ⟨1, 0⟩, Side := Side.buy, MakerOrderId := 11, TakerOrderId := 12 }

/-- A stream that has seen no trade: both ticks absent. -/
def sampleStream : MatchStream :=
  { productId := "BTC-USDT", bestBid := ⟨995, -1⟩, bestAsk := ⟨1005, -1⟩,
    ticks := TickCells.separate none none }

/-- A trade on 2019-05-12 at 10:00:00 UTC: price 100, size 1.  The day is the first of a
30 day bucket, so both bucket keys of this event are 1557619200. -/
def sampleLog0 : MatchLog :=
  { TradeId := 5, Sequence := 9, Time := ⟨1557655200000000000, "UTC"⟩, ProductId := "BTC-USDT",
    Price := ⟨100, 0⟩, Size := ⟨1, 0⟩, Side := Side.buy, MakerOrderId := 3, TakerOrderId := 4 }

/-- A tick of the bucket that starts on 2019-05-12, with volume 12. -/
def sharedTick : Tick :=
  { Open := ⟨98, 0⟩, Close := ⟨99, 0⟩, Low := ⟨97, 0⟩, High := ⟨101, 0⟩, Volume := ⟨12, 0⟩,
    ProductId := "BTC-USDT", Granularity := 1440, Time := 1557619200 }

/-- A stream whose two cells hold one and the same pointer, to `sharedTick`. -/
def sharedStream : MatchStream :=
  { productId := "BTC-USDT", bestBid := ⟨995, -1⟩, bestAsk := ⟨1005, -1⟩,
    ticks := TickCells.shared sharedTick }

/-- A stream whose two cells point to two tick objects of equal content. -/
def twinStream : MatchStream :=
  { productId := "BTC-USDT", bestBid := ⟨995, -1⟩, bestAsk := ⟨1005, -1⟩,
    ticks := TickCells.separate (some sharedTick) (some sharedTick) }

/-- The first sample event retold with other bookkeeping fields: same time, price, size and
product id, but another trade id, sequence, side, order ids and location. -/
def sampleLog1b : MatchLog :=
  { TradeId := 41, Sequence := 77, Time := ⟨1559383200000000000, "Local"⟩,
    ProductId := "BTC-USDT", Price := ⟨100, 0⟩, Size := ⟨1, 0⟩, Side := Side.sell,
    MakerOrderId := 70, TakerOrderId := 80 }

/-- A tick as a lookup may return it: the 24h bucket of 2019-06-01. -/
def sampleTick : Tick :=
  { Open := ⟨98, 0⟩, Close := ⟨99, 0⟩, Low := ⟨97, 0⟩, High := ⟨101, 0⟩, Volume := ⟨12, 0⟩,
    ProductId := "BTC-USDT", Granularity := 1440, Time := 1559347200 }

/-- Stand-ins for the helper functions on the sample events: a fixed time text, the side
names of the spec, base-ten integers, and channel names made of a kind and a product id. -/
def sampleHelpers : Helpers :=
  { FormatRFC3339 := fun t => if t.unixNano = 1559383200000000000 then "2019-06-01T10:00:00Z"
      else toString (t.unixNano / 1000000000)
    SideString := fun sd => match sd with
      | Side.buy => "buy"
      | Side.sell => "sell"
    I64ToA := fun i => toString i
    MatchChannel := fun p => "match:" ++ p
    TickerChannel := fun p => "ticker:" ++ p }

/-! ## Delivery of a log stream -/

/-- One entry of the log stream with its offset; the types of open and done logs are
declared in package matching and are parameters here. -/
inductive LogEntry (OpenLog DoneLog : Type) where
  | openLog (log : OpenLog) (offset : Int)
  | doneLog (log : DoneLog) (offset : Int)
  | matchLog (log : MatchLog) (offset : Int)

/-- Whether an entry is a match log. -/
def LogEntry.isMatch {OpenLog DoneLog : Type} : LogEntry OpenLog DoneLog → Bool
  | LogEntry.matchLog _ _ => true
  | _ => false

/-- Modelled from the spec: the log reader (package matching) hands one entry of the stream
to the handler of the registered observer that belongs to its kind.  The effects of the
handler are appended to those recorded so far; none when the handler fails. -/
def deliver {OpenLog DoneLog : Type} (h : Helpers) (r : Result) :
    LogEntry OpenLog DoneLog → Option Result
  | LogEntry.openLog log offset =>
    let r2 := OnOpenLog r.s r.lastTickers log offset
    some { r2 with effects := r.effects ++ r2.effects }
  | LogEntry.doneLog log offset =>
    let r2 := OnDoneLog r.s r.lastTickers log offset
    some { r2 with effects := r.effects ++ r2.effects }
  | LogEntry.matchLog log offset =>
    match OnMatchLog h r.s r.lastTickers log offset with
    | some r2 => some { r2 with effects := r.effects ++ r2.effects }
    | none => none

/-- Modelled from the spec: the log reader delivers the entries of the stream in stream
order, each exactly once. -/
def deliverAll {OpenLog DoneLog : Type} (h : Helpers) (r : Result) :
    List (LogEntry OpenLog DoneLog) → Option Result
  | [] => some r
  | x :: xs =>
    match deliver h r x with
    | some r2 => deliverAll h r2 xs
    | none => none

/-! ## The cache along an effect trace -/

/-- The cache after the stores of a list of effects have been applied in order. -/
def applyStores (c : SyncMap) : List Effect → SyncMap
  | [] => c
  | Effect.store productId ticker :: rest => applyStores (c.Store productId ticker) rest
  | _ :: rest => applyStores c rest

/-- The cache at the moment the effect at position `k` of a trace takes place, for a
handler that started with cache `c`. -/
def cacheAt (c : SyncMap) (effects : List Effect) (k : Nat) : SyncMap :=
  applyStores c (effects.take k)

/-- Whether an effect is the publication of a match message. -/
def Effect.isMatchPublish : Effect → Bool
  | Effect.publish _ (Message.matchMsg _) => true
  | _ => false

/-- Whether an effect is the publication of a ticker message. -/
def Effect.isTickerPublish : Effect → Bool
  | Effect.publish _ (Message.tickerMsg _) => true
  | _ => false

/-- Whether an effect is a store into the ticker cache. -/
def Effect.isStore : Effect → Bool
  | Effect.store _ _ => true
  | _ => false

/-! ## Facts about decimals -/

theorem Decimal.rescale_exp (d : Decimal) (e : Int) : (d.rescale e).exp = e := by
  unfold Decimal.rescale
  split
  · assumption
  · dsimp only
    split <;> rfl

theorem Decimal.rescale_toRat (d : Decimal) (e : Int) (h : e ≤ d.exp) :
    (d.rescale e).toRat = d.toRat := by
  unfold Decimal.rescale
  split
  · rfl
  · rename_i hne
    have hlt : ¬ e > d.exp := by omega
    simp only [hlt, if_false, Decimal.toRat]
    have hk : ((e - d.exp).natAbs : Int) = d.exp - e := by omega
    have h10 : (10 : ℚ) ≠ 0 := by norm_num
    have hexp : d.exp = ((e - d.exp).natAbs : Int) + e := by omega
    conv_rhs => rw [hexp, zpow_add₀ h10, zpow_natCast]
    push_cast
    ring

theorem Decimal.cmp_common (a b : Decimal) :
    ∃ va vb m : Int, a.toRat = (va : ℚ) * (10 : ℚ) ^ m ∧ b.toRat = (vb : ℚ) * (10 : ℚ) ^ m ∧
      a.Cmp b = bigCmp va vb := by
  unfold Decimal.Cmp
  split
  · rename_i heq
    exact ⟨a.value, b.value, a.exp, rfl, by rw [heq]; rfl, rfl⟩
  · refine ⟨(a.rescale (min a.exp b.exp)).value, (b.rescale (min a.exp b.exp)).value,
      min a.exp b.exp, ?_, ?_, rfl⟩
    · have := Decimal.rescale_toRat a (min a.exp b.exp) (min_le_left _ _)
      rw [← this, Decimal.toRat, Decimal.rescale_exp]
    · have := Decimal.rescale_toRat b (min a.exp b.exp) (min_le_right _ _)
      rw [← this, Decimal.toRat, Decimal.rescale_exp]

theorem Decimal.cmp_neg_iff (a b : Decimal) : a.Cmp b < 0 ↔ a.toRat < b.toRat := by
  obtain ⟨va, vb, m, ha, hb, hc⟩ := Decimal.cmp_common a b
  have hpos : (0 : ℚ) < (10 : ℚ) ^ m := zpow_pos (by norm_num) m
  rw [ha, hb, hc, mul_lt_mul_right hpos, Int.cast_lt]
  unfold bigCmp
  split
  · simp [*]
  · split <;> simp [*]

theorem Decimal.cmp_pos_iff (a b : Decimal) : a.Cmp b > 0 ↔ b.toRat < a.toRat := by
  obtain ⟨va, vb, m, ha, hb, hc⟩ := Decimal.cmp_common a b
  have hpos : (0 : ℚ) < (10 : ℚ) ^ m := zpow_pos (by norm_num) m
  rw [ha, hb, hc, mul_lt_mul_right hpos, Int.cast_lt]
  unfold bigCmp
  split
  · rename_i h
    simp only [gt_iff_lt]
    constructor
    · intro h'; omega
    · intro h'; omega
  · split <;> simp [*]

theorem Decimal.add_toRat (a b : Decimal) : (a.Add b).toRat = a.toRat + b.toRat := by
  have ha := Decimal.rescale_toRat a (min a.exp b.exp) (min_le_left _ _)
  have hb := Decimal.rescale_toRat b (min a.exp b.exp) (min_le_right _ _)
  rw [← ha, ← hb]
  simp only [Decimal.Add, Decimal.toRat, Decimal.rescale_exp]
  push_cast
  ring

theorem Decimal.min_pair (a b : Decimal) :
    Decimal.Min a [b] = if b.toRat < a.toRat then b else a := by
  simp only [Decimal.Min, List.foldl_cons, List.foldl_nil]
  by_cases h : b.toRat < a.toRat
  · rw [if_pos h, if_pos ((Decimal.cmp_neg_iff b a).2 h)]
  · rw [if_neg h, if_neg (fun hc => h ((Decimal.cmp_neg_iff b a).1 hc))]

theorem Decimal.max_pair (a b : Decimal) :
    Decimal.Max a [b] = if a.toRat < b.toRat then b else a := by
  simp only [Decimal.Max, List.foldl_cons, List.foldl_nil]
  by_cases h : a.toRat < b.toRat
  · rw [if_pos h, if_pos ((Decimal.cmp_pos_iff b a).2 h)]
  · rw [if_neg h, if_neg (fun hc => h ((Decimal.cmp_pos_iff b a).1 hc))]

theorem Decimal.min_pair_toRat (a b : Decimal) :
    (Decimal.Min a [b]).toRat = min a.toRat b.toRat := by
  rw [Decimal.min_pair]
  split
  · rw [min_eq_right (le_of_lt ‹_›)]
  · rw [min_eq_left (not_lt.1 ‹_›)]

theorem Decimal.max_pair_toRat (a b : Decimal) :
    (Decimal.Max a [b]).toRat = max a.toRat b.toRat := by
  rw [Decimal.max_pair]
  split
  · rw [max_eq_right (le_of_lt ‹_›)]
  · rw [max_eq_left (not_lt.1 ‹_›)]

/-! ## Facts about refreshTick -/

theorem refreshTick_of_ne (T : Tick) (G : Int) (e : MatchLog) (h : T.Time ≠ tickTime G e) :
    refreshTick (some T) G e = some (newTick G e) := by
  simp only [refreshTick, if_pos h]

theorem refreshTick_of_eq (T : Tick) (G : Int) (e : MatchLog) (h : T.Time = tickTime G e) :
    refreshTick (some T) G e =
      some { T with
        Close := e.Price
        Low := Decimal.Min T.Low [e.Price]
        High := Decimal.Max T.High [e.Price]
        Volume := T.Volume.Add e.Size } := by
  simp only [refreshTick, h, ne_eq, not_true_eq_false, if_false]

/-- Folding events of bucket `K` into a tick of bucket `K`: what each field becomes. -/
theorem refreshTicks_in_bucket (G K : Int) (es : List MatchLog) :
    ∀ T : Tick, T.Time = K → (∀ x ∈ es, tickTime G x = K) →
    ∃ R : Tick, refreshTicks (some T) G es = some R ∧ R.Open = T.Open ∧ R.Time = K ∧
      R.Granularity = T.Granularity ∧ R.ProductId = T.ProductId ∧
      R.Close = (T.Close :: es.map (fun x => x.Price)).getLast (List.cons_ne_nil _ _) ∧
      (R.Low = T.Low ∨ R.Low ∈ es.map (fun x => x.Price)) ∧
      R.Low.toRat ≤ T.Low.toRat ∧ (∀ x ∈ es, R.Low.toRat ≤ x.Price.toRat) ∧
      (R.High = T.High ∨ R.High ∈ es.map (fun x => x.Price)) ∧
      T.High.toRat ≤ R.High.toRat ∧ (∀ x ∈ es, x.Price.toRat ≤ R.High.toRat) ∧
      R.Volume.toRat = T.Volume.toRat + (es.map (fun x => x.Size.toRat)).sum := by
  induction es with
  | nil =>
    intro T hT _
    exact ⟨T, rfl, rfl, hT, rfl, rfl, rfl, Or.inl rfl, le_refl _, by simp, Or.inl rfl,
      le_refl _, by simp, by simp⟩
  | cons e es ih =>
    intro T hT hes
    have he : tickTime G e = K := hes e (List.mem_cons_self _ _)
    have hstep := refreshTick_of_eq T G e (by rw [hT, he])
    obtain ⟨R, hR, hO, hTime, hG, hP, hC, hLm, hLle, hLall, hHm, hHle, hHall, hV⟩ :=
      ih _ (show ({ T with
        Close := e.Price
        Low := Decimal.Min T.Low [e.Price]
        High := Decimal.Max T.High [e.Price]
        Volume := T.Volume.Add e.Size } : Tick).Time = K from hT)
        (fun x hx => hes x (List.mem_cons_of_mem _ hx))
    simp only at hO hG hP hC hLm hLle hLall hHm hHle hHall hV
    rw [Decimal.min_pair_toRat] at hLle
    rw [Decimal.max_pair_toRat] at hHle
    rw [Decimal.add_toRat] at hV
    refine ⟨R, ?_, hO, hTime, hG, hP, ?_, ?_, ?_, ?_, ?_, ?_, ?_, ?_⟩
    · simp only [refreshTicks, List.foldl_cons] at hR ⊢
      rw [hstep]
      exact hR
    · rw [hC]
      simp only [List.map_cons]
      rw [List.getLast_cons (List.cons_ne_nil _ _)]
    · rcases hLm with h | h
      · rw [h, Decimal.min_pair]
        split
        · right; simp
        · left; rfl
      · right
        simp only [List.map_cons, List.mem_cons]
        exact Or.inr h
    · exact le_trans hLle (min_le_left _ _)
    · intro x hx
      rcases List.mem_cons.1 hx with h | h
      · rw [h]; exact le_trans hLle (min_le_right _ _)
      · exact hLall x h
    · rcases hHm with h | h
      · rw [h, Decimal.max_pair]
        split
        · right; simp
        · left; rfl
      · right
        simp only [List.map_cons, List.mem_cons]
        exact Or.inr h
    · exact le_trans (le_max_left _ _) hHle
    · intro x hx
      rcases List.mem_cons.1 hx with h | h
      · rw [h]; exact le_trans (le_max_right _ _) hHle
      · exact hHall x h
    · rw [hV]
      simp only [List.map_cons, List.sum_cons]
      ring

/-- C1: for a non-empty list of events that all have bucket key `K`, folded by `refreshTick`
from an absent tick or from a tick of another bucket, the final tick has the price of the
first event as Open, the price of the last event as Close, as Low a price of the list that
is at most every price, as High a price of the list that is at least every price, and as
Volume a decimal whose value is the exact sum of the sizes. -/
theorem refreshTicks_one_bucket (G K : Int) (tick : Option Tick) (es : List MatchLog)
    (hne : es ≠ []) (hK : ∀ x ∈ es, tickTime G x = K) (h0 : ∀ T, tick = some T → T.Time ≠ K) :
    ∃ R : Tick, refreshTicks tick G es = some R ∧
      R.Open = (es.head hne).Price ∧
      R.Close = (es.getLast hne).Price ∧
      R.Low ∈ es.map (fun x => x.Price) ∧ (∀ x ∈ es, R.Low.toRat ≤ x.Price.toRat) ∧
      R.High ∈ es.map (fun x => x.Price) ∧ (∀ x ∈ es, x.Price.toRat ≤ R.High.toRat) ∧
      R.Volume.toRat = (es.map (fun x => x.Size.toRat)).sum := by
  cases es with
  | nil => exact absurd rfl hne
  | cons e rest =>
    have he : tickTime G e = K := hK e (List.mem_cons_self _ _)
    have hfirst : refreshTick tick G e = some (newTick G e) := by
      cases tick with
      | none => rfl
      | some T => exact refreshTick_of_ne T G e (by rw [he]; exact h0 T rfl)
    obtain ⟨R, hR, hO, _, _, _, hC, hLm, hLle, hLall, hHm, hHle, hHall, hV⟩ :=
      refreshTicks_in_bucket G K rest (newTick G e) he
        (fun x hx => hK x (List.mem_cons_of_mem _ hx))
    simp only [newTick] at hO hC hLm hLle hHm hHle hV
    refine ⟨R, ?_, hO, ?_, ?_, ?_, ?_, ?_, hV⟩
    · simp only [refreshTicks, List.foldl_cons] at hR ⊢
      rw [hfirst]
      exact hR
    · rw [hC]
      have hmap : e.Price :: rest.map (fun x => x.Price) = (e :: rest).map (fun x => x.Price) :=
        rfl
      simp only [hmap, List.getLast_map]
    · simp only [List.map_cons, List.mem_cons]
      rcases hLm with h | h
      · exact Or.inl h
      · exact Or.inr h
    · intro x hx
      rcases List.mem_cons.1 hx with h | h
      · rw [h]; exact hLle
      · exact hLall x h
    · simp only [List.map_cons, List.mem_cons]
      rcases hHm with h | h
      · exact Or.inl h
      · exact Or.inr h
    · intro x hx
      rcases List.mem_cons.1 hx with h | h
      · rw [h]; exact hHle
      · exact hHall x h

/-- C1 at the two sample events of one day, starting from an absent tick. -/
theorem refreshTicks_one_bucket_witness :
    (∀ x ∈ [sampleLog1, sampleLog2], tickTime 1440 x = 1559347200) ∧
    (∀ T, (none : Option Tick) = some T → T.Time ≠ 1559347200) ∧
    ∃ R : Tick, refreshTicks none 1440 [sampleLog1, sampleLog2] = some R ∧
      R.Open = ([sampleLog1, sampleLog2].head (List.cons_ne_nil _ _)).Price ∧
      R.Close = ([sampleLog1, sampleLog2].getLast (List.cons_ne_nil _ _)).Price ∧
      R.Low ∈ [sampleLog1, sampleLog2].map (fun x => x.Price) ∧
      (∀ x ∈ [sampleLog1, sampleLog2], R.Low.toRat ≤ x.Price.toRat) ∧
      R.High ∈ [sampleLog1, sampleLog2].map (fun x => x.Price) ∧
      (∀ x ∈ [sampleLog1, sampleLog2], x.Price.toRat ≤ R.High.toRat) ∧
      R.Volume.toRat = ([sampleLog1, sampleLog2].map (fun x => x.Size.toRat)).sum :=
  ⟨by decide, fun _ h => Option.noConfusion h,
    refreshTicks_one_bucket 1440 1559347200 none [sampleLog1, sampleLog2]
      (List.cons_ne_nil _ _) (by decide) (fun _ h => Option.noConfusion h)⟩

/-- C2: when the tick is absent or its Time differs from the bucket key of the event,
`refreshTick` leaves a fresh tick: Open, Close, Low and High are the price of the event,
Volume is its size, Time is the bucket key, Granularity is `G` and ProductId is that of the
event; the result is the one an absent tick gives, so nothing of the previous tick is kept. -/
theorem refreshTick_fresh (tick : Option Tick) (G : Int) (e : MatchLog)
    (h : tick = none ∨ ∃ T, tick = some T ∧ T.Time ≠ tickTime G e) :
    refreshTick tick G e =
        some
          { Open := e.Price
            Close := e.Price
            Low := e.Price
            High := e.Price
            Volume := e.Size
            ProductId := e.ProductId
            Granularity := G
            Time := tickTime G e } ∧
      refreshTick tick G e = refreshTick none G e := by
  rcases h with h | ⟨T, hT, hne⟩
  · subst h
    exact ⟨rfl, rfl⟩
  · subst hT
    rw [refreshTick_of_ne T G e hne]
    exact ⟨rfl, rfl⟩

/-- C2 at the third sample event, applied to the tick of the previous day. -/
theorem refreshTick_fresh_witness :
    ((some (newTick 1440 sampleLog1) : Option Tick) = none ∨
      ∃ T, some (newTick 1440 sampleLog1) = some T ∧ T.Time ≠ tickTime 1440 sampleLog3) ∧
    (refreshTick (some (newTick 1440 sampleLog1)) 1440 sampleLog3 =
        some
          { Open := sampleLog3.Price
            Close := sampleLog3.Price
            Low := sampleLog3.Price
            High := sampleLog3.Price
            Volume := sampleLog3.Size
            ProductId := sampleLog3.ProductId
            Granularity := 1440
            Time := tickTime 1440 sampleLog3 } ∧
      refreshTick (some (newTick 1440 sampleLog1)) 1440 sampleLog3 =
        refreshTick none 1440 sampleLog3) :=
  ⟨Or.inr ⟨newTick 1440 sampleLog1, rfl, by decide⟩,
    refreshTick_fresh (some (newTick 1440 sampleLog1)) 1440 sampleLog3
      (Or.inr ⟨newTick 1440 sampleLog1, rfl, by decide⟩)⟩

/-- C3: for a present tick `T` and an event whose bucket key equals `T.Time`, `refreshTick`
sets Close to the price of the event, Low to `decimal.Min(T.Low, price)` (the smaller
value), High to `decimal.Max(T.High, price)` (the larger value) and Volume to
`T.Volume.Add(size)` (the exact sum), and keeps Open, Time, Granularity and ProductId. -/
theorem refreshTick_same_bucket (T : Tick) (G : Int) (e : MatchLog)
    (h : tickTime G e = T.Time) :
    ∃ R : Tick, refreshTick (some T) G e = some R ∧
      R.Close = e.Price ∧
      R.Low = Decimal.Min T.Low [e.Price] ∧ R.Low.toRat = min T.Low.toRat e.Price.toRat ∧
      R.High = Decimal.Max T.High [e.Price] ∧ R.High.toRat = max T.High.toRat e.Price.toRat ∧
      R.Volume = T.Volume.Add e.Size ∧ R.Volume.toRat = T.Volume.toRat + e.Size.toRat ∧
      R.Open = T.Open ∧ R.Time = T.Time ∧ R.Granularity = T.Granularity ∧
      R.ProductId = T.ProductId :=
  ⟨_, refreshTick_of_eq T G e h.symm, rfl, rfl, Decimal.min_pair_toRat _ _, rfl,
    Decimal.max_pair_toRat _ _, rfl, Decimal.add_toRat _ _, rfl, rfl, rfl, rfl⟩

/-- C3 at the second sample event, applied to the tick the first one opened. -/
theorem refreshTick_same_bucket_witness :
    tickTime 1440 sampleLog2 = (newTick 1440 sampleLog1).Time ∧
    ∃ R : Tick, refreshTick (some (newTick 1440 sampleLog1)) 1440 sampleLog2 = some R ∧
      R.Close = sampleLog2.Price ∧
      R.Low = Decimal.Min (newTick 1440 sampleLog1).Low [sampleLog2.Price] ∧
      R.Low.toRat = min (newTick 1440 sampleLog1).Low.toRat sampleLog2.Price.toRat ∧
      R.High = Decimal.Max (newTick 1440 sampleLog1).High [sampleLog2.Price] ∧
      R.High.toRat = max (newTick 1440 sampleLog1).High.toRat sampleLog2.Price.toRat ∧
      R.Volume = (newTick 1440 sampleLog1).Volume.Add sampleLog2.Size ∧
      R.Volume.toRat = (newTick 1440 sampleLog1).Volume.toRat + sampleLog2.Size.toRat ∧
      R.Open = (newTick 1440 sampleLog1).Open ∧ R.Time = (newTick 1440 sampleLog1).Time ∧
      R.Granularity = (newTick 1440 sampleLog1).Granularity ∧
      R.ProductId = (newTick 1440 sampleLog1).ProductId :=
  ⟨by decide, refreshTick_same_bucket (newTick 1440 sampleLog1) 1440 sampleLog2 (by decide)⟩

/-! ## The bucket key -/

/-- The bucket key when the duration `d` handed to `Truncate` is positive. -/
theorem tickTime_of_pos (G : Int) (e : MatchLog) (hd : 0 < wrapInt64 (G * Minute)) :
    tickTime G e =
      (e.Time.unixNano - (e.Time.unixNano + unixToInternal * 1000000000) %
        wrapInt64 (G * Minute)) / 1000000000 := by
  simp only [tickTime, Time.UTC, Time.Truncate, Time.Unix, if_neg (not_le.2 hd)]

/-- The bucket key when the duration `d` handed to `Truncate` is not positive. -/
theorem tickTime_of_nonpos (G : Int) (e : MatchLog) (hd : wrapInt64 (G * Minute) ≤ 0) :
    tickTime G e = e.Time.Unix := by
  simp only [tickTime, Time.UTC, Time.Truncate, Time.Unix, if_pos hd]

/-- C4 fails for the 30 day granularity: on 2019-06-01 the bucket key is 2019-05-12, not
the multiple of 30 days since the Unix epoch below the event time (2019-05-14), and it is
not a multiple of 30 days at all. -/
theorem tickTime_30d_not_epoch_multiple :
    tickTime 43200 sampleLog1 = 1557619200 ∧
    sampleLog1.Time.Unix / (43200 * 60) * (43200 * 60) = 1557792000 ∧
    tickTime 43200 sampleLog1 ≠ sampleLog1.Time.Unix / (43200 * 60) * (43200 * 60) ∧
    ¬ ((43200 * 60 : Int) ∣ tickTime 43200 sampleLog1) := by
  decide

/-- C4 as amended: the bucket key is the event time truncated down to a multiple of the
granularity counted from the zero time of package time (0001-01-01 UTC, `unixToInternal`
seconds before the Unix epoch).  For 1440 minutes this is the multiple of 86400 below the
epoch seconds; for 43200 minutes it is 2419200 more than a multiple of 2592000. -/
theorem tickTime_configured (e : MatchLog) :
    tickTime 1440 e = e.Time.Unix / (1440 * 60) * (1440 * 60) ∧
    (1440 * 60 : Int) ∣ tickTime 1440 e ∧
    tickTime 43200 e =
      (e.Time.Unix + unixToInternal) / (43200 * 60) * (43200 * 60) - unixToInternal ∧
    (43200 * 60 : Int) ∣ tickTime 43200 e + unixToInternal ∧
    tickTime 43200 e % (43200 * 60) = 2419200 := by
  have h1 : tickTime 1440 e = e.Time.Unix / (1440 * 60) * (1440 * 60) := by
    rw [tickTime_of_pos 1440 e (by decide)]
    have hw : wrapInt64 (1440 * Minute) = 86400000000000 := by decide
    rw [hw]
    simp only [Time.Unix, unixToInternal]
    omega
  have h2 : tickTime 43200 e =
      (e.Time.Unix + unixToInternal) / (43200 * 60) * (43200 * 60) - unixToInternal := by
    rw [tickTime_of_pos 43200 e (by decide)]
    have hw : wrapInt64 (43200 * Minute) = 2592000000000000 := by decide
    rw [hw]
    simp only [Time.Unix, unixToInternal]
    omega
  refine ⟨h1, ?_, h2, ?_, ?_⟩
  · rw [h1]; exact Dvd.intro_left _ rfl
  · rw [h2, sub_add_cancel]; exact Dvd.intro_left _ rfl
  · rw [h2]; simp only [unixToInternal]; omega

/-- C5: for every positive granularity the event lies in the window named by its bucket
key: `K <= epochSeconds(t) < K + G*60`. -/
theorem tickTime_window (G : Int) (e : MatchLog) (hG : 0 < G) :
    tickTime G e ≤ e.Time.Unix ∧ e.Time.Unix < tickTime G e + G * 60 := by
  by_cases hd : wrapInt64 (G * Minute) ≤ 0
  · rw [tickTime_of_nonpos G e hd]
    omega
  · have hpos : 0 < wrapInt64 (G * Minute) := not_le.1 hd
    rw [tickTime_of_pos G e hpos]
    have hr0 := Int.emod_nonneg (e.Time.unixNano + unixToInternal * 1000000000) (ne_of_gt hpos)
    have hr1 := Int.emod_lt_of_pos (e.Time.unixNano + unixToInternal * 1000000000) hpos
    have hq := Int.emod_add_ediv (e.Time.unixNano + unixToInternal * 1000000000)
      (wrapInt64 (G * Minute))
    simp only [Time.Unix]
    generalize (e.Time.unixNano + unixToInternal * 1000000000) % wrapInt64 (G * Minute) = r
      at hr0 hr1 hq ⊢
    generalize (e.Time.unixNano + unixToInternal * 1000000000) / wrapInt64 (G * Minute) = q
      at hq
    by_cases hwrap : G * Minute < 2 ^ 63
    · have hw : wrapInt64 (G * Minute) = G * Minute := by
        simp only [wrapInt64, Minute] at hwrap ⊢
        omega
      rw [hw] at hq hr1
      have hmul : G * Minute * q = 60000000000 * (G * q) := by
        simp only [Minute]; ring
      rw [hmul] at hq
      simp only [Minute, unixToInternal] at hq hr1
      generalize G * q = p at hq
      omega
    · simp only [wrapInt64, Minute] at hwrap hr1 hpos
      omega

/-- C5 at the first sample event and the 24 hour granularity. -/
theorem tickTime_window_witness :
    (0 : Int) < 1440 ∧
    tickTime 1440 sampleLog1 ≤ sampleLog1.Time.Unix ∧
    sampleLog1.Time.Unix < tickTime 1440 sampleLog1 + 1440 * 60 :=
  ⟨by decide, tickTime_window 1440 sampleLog1 (by decide)⟩

/-- C6: whatever the cell held, after `refreshTick` it holds a tick whose Time is the bucket
key of the event; a tick whose Time is not that key is not updated in place but replaced by
the fresh tick of the event. -/
theorem refreshTick_time (tick : Option Tick) (G : Int) (e : MatchLog) :
    ∃ R : Tick, refreshTick tick G e = some R ∧ R.Time = tickTime G e ∧
      ∀ T, tick = some T → T.Time ≠ tickTime G e → R = newTick G e := by
  cases tick with
  | none => exact ⟨newTick G e, rfl, rfl, fun _ _ _ => rfl⟩
  | some T =>
    by_cases h : T.Time = tickTime G e
    · exact ⟨_, refreshTick_of_eq T G e h, h, fun _ hT hne => absurd (Option.some.inj hT ▸ h) hne⟩
    · exact ⟨_, refreshTick_of_ne T G e h, rfl, fun _ _ _ => rfl⟩

/-! ## OnMatchLog and the ticker cache -/

theorem refreshTick_some (tick : Option Tick) (G : Int) (e : MatchLog) :
    ∃ R : Tick, refreshTick tick G e = some R := by
  cases tick with
  | none => exact ⟨_, rfl⟩
  | some T =>
    by_cases h : T.Time = tickTime G e
    · exact ⟨_, refreshTick_of_eq T G e h⟩
    · exact ⟨_, refreshTick_of_ne T G e h⟩

/-- The cell that `refreshTick` is called on holds afterwards what `refreshTick` makes of
its previous content, shared or not. -/
theorem TickCells.refresh24h_tick24h (c : TickCells) (G : Int) (log : MatchLog) :
    (c.refresh24h G log).tick24h = refreshTick c.tick24h G log := by
  cases c with
  | separate a b => rfl
  | shared t =>
    by_cases hk : t.Time = tickTime G log
    · simp only [TickCells.refresh24h, TickCells.tick24h, refreshTick, hk, ne_eq,
        not_true_eq_false, if_false]
    · simp only [TickCells.refresh24h, TickCells.tick24h, refreshTick, hk, ne_eq,
        not_false_eq_true, if_true]

theorem TickCells.refresh30d_tick30d (c : TickCells) (G : Int) (log : MatchLog) :
    (c.refresh30d G log).tick30d = refreshTick c.tick30d G log := by
  cases c with
  | separate a b => rfl
  | shared t =>
    by_cases hk : t.Time = tickTime G log
    · simp only [TickCells.refresh30d, TickCells.tick30d, refreshTick, hk, ne_eq,
        not_true_eq_false, if_false]
    · simp only [TickCells.refresh30d, TickCells.tick30d, refreshTick, hk, ne_eq,
        not_false_eq_true, if_true]

theorem TickCells.refresh30d_tick24h_some (c : TickCells) (G : Int) (log : MatchLog) (x : Tick)
    (hx : c.tick24h = some x) : ∃ y, (c.refresh30d G log).tick24h = some y := by
  cases c with
  | separate a b => exact ⟨x, hx⟩
  | shared t =>
    by_cases hk : t.Time = tickTime G log
    · exact ⟨_, by
        simp only [TickCells.refresh30d, hk, ne_eq, not_true_eq_false, if_false]
        rfl⟩
    · exact ⟨t, by
        simp only [TickCells.refresh30d, hk, ne_eq, not_false_eq_true, if_true]
        rfl⟩

/-- After the two `refreshTick` calls both cells hold a tick. -/
theorem TickCells.refreshed_present (c : TickCells) (G1 G2 : Int) (log : MatchLog) :
    ∃ t24 t30, ((c.refresh24h G1 log).refresh30d G2 log).tick24h = some t24 ∧
      ((c.refresh24h G1 log).refresh30d G2 log).tick30d = some t30 := by
  obtain ⟨x, hx⟩ := refreshTick_some c.tick24h G1 log
  rw [← TickCells.refresh24h_tick24h] at hx
  obtain ⟨y, hy⟩ := TickCells.refresh30d_tick24h_some (c.refresh24h G1 log) G2 log x hx
  obtain ⟨z, hz⟩ := refreshTick_some (c.refresh24h G1 log).tick30d G2 log
  rw [← TickCells.refresh30d_tick30d] at hz
  exact ⟨y, z, hy, hz⟩

/-- On separate cells the two calls act on one cell each. -/
theorem TickCells.refreshed_separate (a b : Option Tick) (G1 G2 : Int) (log : MatchLog) :
    ((TickCells.separate a b).refresh24h G1 log).refresh30d G2 log =
      TickCells.separate (refreshTick a G1 log) (refreshTick b G2 log) :=
  rfl

/-- The result of `OnMatchLog`, written out in terms of the two refreshed ticks. -/
theorem OnMatchLog_run (h : Helpers) (s : MatchStream) (c : SyncMap) (log : MatchLog)
    (offset : Int) (t24 t30 : Tick)
    (h24 : ((s.ticks.refresh24h (24 * 60) log).refresh30d (30 * 24 * 60) log).tick24h =
      some t24)
    (h30 : ((s.ticks.refresh24h (24 * 60) log).refresh30d (30 * 24 * 60) log).tick30d =
      some t30) :
    OnMatchLog h s c log offset =
      some
        { s := { s with
            ticks := (s.ticks.refresh24h (24 * 60) log).refresh30d (30 * 24 * 60) log }
          lastTickers := c.Store log.ProductId
            { «Type» := "ticker"
              TradeId := log.TradeId
              Sequence := log.Sequence
              Time := h.FormatRFC3339 log.Time
              ProductId := log.ProductId
              Price := log.Price.string true
              Side := h.SideString log.Side
              LastSize := log.Size.string true
              BestBid := s.bestBid.string true
              BestAsk := s.bestAsk.string true
              Open24h := t24.Open.string true
              Low24h := t24.Low.string true
              Volume24h := t24.Volume.string true
              Volume30d := t30.Volume.string true }
          effects :=
            [Effect.publish (h.MatchChannel log.ProductId) (Message.matchMsg
              { «Type» := "match"
                TradeId := log.TradeId
                Sequence := log.Sequence
                Time := h.FormatRFC3339 log.Time
                ProductId := log.ProductId
                Price := log.Price.string true
                Side := h.SideString log.Side
                MakerOrderId := h.I64ToA log.MakerOrderId
                TakerOrderId := h.I64ToA log.TakerOrderId
                Size := log.Size.string true }),
              Effect.store log.ProductId
                { «Type» := "ticker"
                  TradeId := log.TradeId
                  Sequence := log.Sequence
                  Time := h.FormatRFC3339 log.Time
                  ProductId := log.ProductId
                  Price := log.Price.string true
                  Side := h.SideString log.Side
                  LastSize := log.Size.string true
                  BestBid := s.bestBid.string true
                  BestAsk := s.bestAsk.string true
                  Open24h := t24.Open.string true
                  Low24h := t24.Low.string true
                  Volume24h := t24.Volume.string true
                  Volume30d := t30.Volume.string true },
              Effect.publish (h.TickerChannel log.ProductId) (Message.tickerMsg
                { «Type» := "ticker"
                  TradeId := log.TradeId
                  Sequence := log.Sequence
                  Time := h.FormatRFC3339 log.Time
                  ProductId := log.ProductId
                  Price := log.Price.string true
                  Side := h.SideString log.Side
                  LastSize := log.Size.string true
                  BestBid := s.bestBid.string true
                  BestAsk := s.bestAsk.string true
                  Open24h := t24.Open.string true
                  Low24h := t24.Low.string true
                  Volume24h := t24.Volume.string true
                  Volume30d := t30.Volume.string true })] } := by
  simp only [OnMatchLog, MatchStream.tick24h, MatchStream.tick30d, h24, h30]

theorem getLastTicker_eq (c : SyncMap) (I : String) : getLastTicker c I = c I := by
  unfold getLastTicker SyncMap.Load
  cases c I <;> rfl

theorem getLastTicker_Store_same (c : SyncMap) (I : String) (tk : TickerMessage) :
    getLastTicker (c.Store I tk) I = some tk := by
  rw [getLastTicker_eq]
  simp only [SyncMap.Store, if_true]

theorem getLastTicker_Store_other (c : SyncMap) (I J : String) (tk : TickerMessage)
    (hne : J ≠ I) : getLastTicker (c.Store I tk) J = getLastTicker c J := by
  rw [getLastTicker_eq, getLastTicker_eq]
  simp only [SyncMap.Store, if_neg hne]

/-- What `OnMatchLog` does to the cache: it stores one ticker under the product id of the
log, whatever the stream and the cache were. -/
theorem OnMatchLog_cache (h : Helpers) (s : MatchStream) (c : SyncMap) (log : MatchLog)
    (offset : Int) :
    ∃ r tk, OnMatchLog h s c log offset = some r ∧
      r.lastTickers = c.Store log.ProductId tk := by
  obtain ⟨t24, t30, h24, h30⟩ := TickCells.refreshed_present s.ticks (24 * 60) (30 * 24 * 60) log
  exact ⟨_, _, OnMatchLog_run h s c log offset t24 t30 h24 h30, rfl⟩

/-- The lookup after a sequence of `OnMatchLog` calls from any cache. -/
theorem getLastTicker_cacheAfter (h : Helpers) (calls : List Call) (I : String) :
    ∀ c0 : SyncMap, getLastTicker (cacheAfter h c0 calls) I = none ↔
      (getLastTicker c0 I = none ∧ ∀ c ∈ calls, c.log.ProductId ≠ I) := by
  induction calls with
  | nil =>
    intro c0
    simp [cacheAfter]
  | cons c rest ih =>
    intro c0
    obtain ⟨r, tk, hr, hst⟩ := OnMatchLog_cache h c.s c0 c.log c.offset
    simp only [cacheAfter, hr]
    rw [ih r.lastTickers, hst]
    by_cases hI : I = c.log.ProductId
    · subst hI
      rw [getLastTicker_Store_same]
      simp
    · rw [getLastTicker_Store_other _ _ _ _ hI]
      simp only [List.mem_cons, forall_eq_or_imp]
      constructor
      · rintro ⟨h0, hall⟩
        exact ⟨h0, fun heq => hI heq.symm, hall⟩
      · rintro ⟨h0, _, hall⟩
        exact ⟨h0, hall⟩

/-- C7: after `OnMatchLog` for an event, `getLastTicker` for the product id of the event
returns the ticker message that `OnMatchLog` published last, on the ticker channel; the
same message is returned whatever the cache held before. -/
theorem OnMatchLog_getLastTicker (h : Helpers) (s : MatchStream) (c : SyncMap) (E : MatchLog)
    (offset : Int) :
    ∃ r tk, OnMatchLog h s c E offset = some r ∧
      getLastTicker r.lastTickers E.ProductId = some tk ∧
      r.effects.getLast? =
        some (Effect.publish (h.TickerChannel E.ProductId) (Message.tickerMsg tk)) ∧
      ∀ c2 : SyncMap, ∃ r2, OnMatchLog h s c2 E offset = some r2 ∧
        getLastTicker r2.lastTickers E.ProductId = some tk := by
  obtain ⟨t24, t30, h24, h30⟩ := TickCells.refreshed_present s.ticks (24 * 60) (30 * 24 * 60) E
  refine ⟨_, _, OnMatchLog_run h s c E offset t24 t30 h24 h30, ?_, rfl, ?_⟩
  · exact getLastTicker_Store_same _ _ _
  · intro c2
    exact ⟨_, OnMatchLog_run h s c2 E offset t24 t30 h24 h30, getLastTicker_Store_same _ _ _⟩

/-- C8: `getLastTicker` returns none on the empty cache, and after any sequence of
`OnMatchLog` calls on a cache that started empty it returns none for a product id exactly
when no log of the sequence has that product id. -/
theorem getLastTicker_none_iff (h : Helpers) (calls : List Call) (I : String) :
    getLastTicker SyncMap.empty I = none ∧
    (getLastTicker (cacheAfter h SyncMap.empty calls) I = none ↔
      ∀ c ∈ calls, c.log.ProductId ≠ I) := by
  refine ⟨rfl, ?_⟩
  rw [getLastTicker_cacheAfter h calls I SyncMap.empty]
  exact ⟨fun hc => hc.2, fun hc => ⟨rfl, hc⟩⟩

/-- C9: the ticker message that `OnMatchLog` publishes has type "ticker", the trade id,
sequence, formatted time, product id, price string, side string and size string of the
event, the strings of the best bid and best ask of the stream, and the strings of Open, Low
and Volume of the 24h tick and of Volume of the 30d tick as the stream holds them after the
two `refreshTick` calls for this event; when the two cells are separate these are
`refreshTick` of the previous 24h tick and of the previous 30d tick. -/
theorem OnMatchLog_ticker (h : Helpers) (s : MatchStream) (c : SyncMap) (E : MatchLog)
    (offset : Int) :
    ∃ r t24 t30, OnMatchLog h s c E offset = some r ∧
      r.s.tick24h = some t24 ∧ r.s.tick30d = some t30 ∧
      r.s.ticks = (s.ticks.refresh24h 1440 E).refresh30d 43200 E ∧
      (∀ a b, s.ticks = TickCells.separate a b →
        refreshTick s.tick24h 1440 E = some t24 ∧ refreshTick s.tick30d 43200 E = some t30) ∧
      r.effects.getLast? =
        some (Effect.publish (h.TickerChannel E.ProductId) (Message.tickerMsg
          { «Type» := "ticker"
            TradeId := E.TradeId
            Sequence := E.Sequence
            Time := h.FormatRFC3339 E.Time
            ProductId := E.ProductId
            Price := E.Price.string true
            Side := h.SideString E.Side
            LastSize := E.Size.string true
            BestBid := s.bestBid.string true
            BestAsk := s.bestAsk.string true
            Open24h := t24.Open.string true
            Low24h := t24.Low.string true
            Volume24h := t24.Volume.string true
            Volume30d := t30.Volume.string true })) := by
  obtain ⟨t24, t30, h24, h30⟩ := TickCells.refreshed_present s.ticks (24 * 60) (30 * 24 * 60) E
  refine ⟨_, t24, t30, OnMatchLog_run h s c E offset t24 t30 h24 h30, h24, h30, rfl, ?_, rfl⟩
  intro a b hsep
  rw [hsep, TickCells.refreshed_separate] at h24 h30
  simp only [MatchStream.tick24h, MatchStream.tick30d, hsep]
  exact ⟨h24, h30⟩

/-- C10: the effects of `OnMatchLog` are, in order, the publication of the match message
(type "match" and the fields of the event) on the match channel of the product id of the
event, the store of the ticker message in the cache, and the publication of that ticker
message on the ticker channel; the stream changes only in its two tick cells, which are as
the two `refreshTick` calls leave them (on separate cells: `refreshTick` of each previous
tick), and the cache only by that store. -/
theorem OnMatchLog_effects (h : Helpers) (s : MatchStream) (c : SyncMap) (E : MatchLog)
    (offset : Int) :
    ∃ r tk, OnMatchLog h s c E offset = some r ∧
      r.effects =
        [Effect.publish (h.MatchChannel E.ProductId) (Message.matchMsg
          { «Type» := "match"
            TradeId := E.TradeId
            Sequence := E.Sequence
            Time := h.FormatRFC3339 E.Time
            ProductId := E.ProductId
            Price := E.Price.string true
            Side := h.SideString E.Side
            MakerOrderId := h.I64ToA E.MakerOrderId
            TakerOrderId := h.I64ToA E.TakerOrderId
            Size := E.Size.string true }),
          Effect.store E.ProductId tk,
          Effect.publish (h.TickerChannel E.ProductId) (Message.tickerMsg tk)] ∧
      r.lastTickers = c.Store E.ProductId tk ∧
      r.s = { s with ticks := (s.ticks.refresh24h 1440 E).refresh30d 43200 E } ∧
      (∀ a b, s.ticks = TickCells.separate a b →
        r.s = { s with
          ticks := TickCells.separate (refreshTick s.tick24h 1440 E)
            (refreshTick s.tick30d 43200 E) }) ∧
      r.s.productId = s.productId ∧ r.s.bestBid = s.bestBid ∧ r.s.bestAsk = s.bestAsk := by
  obtain ⟨t24, t30, h24, h30⟩ := TickCells.refreshed_present s.ticks (24 * 60) (30 * 24 * 60) E
  refine ⟨_, _, OnMatchLog_run h s c E offset t24 t30 h24 h30, rfl, rfl, rfl, ?_, rfl, rfl, rfl⟩
  intro a b hsep
  simp only [MatchStream.tick24h, MatchStream.tick30d, hsep, TickCells.tick24h,
    TickCells.tick30d]
  rfl

/-! ## Open and done logs -/

theorem deliver_not_match {OpenLog DoneLog : Type} (h : Helpers) (r : Result)
    (x : LogEntry OpenLog DoneLog) (hx : x.isMatch = false) : deliver h r x = some r := by
  cases x with
  | openLog log offset => simp [deliver, OnOpenLog]
  | doneLog log offset => simp [deliver, OnDoneLog]
  | matchLog log offset => simp [LogEntry.isMatch] at hx

theorem deliverAll_filter {OpenLog DoneLog : Type} (h : Helpers)
    (xs : List (LogEntry OpenLog DoneLog)) :
    ∀ r : Result, deliverAll h r xs = deliverAll h r (xs.filter (fun x => x.isMatch)) := by
  induction xs with
  | nil => intro r; rfl
  | cons x xs ih =>
    intro r
    cases hx : x.isMatch with
    | false =>
      rw [List.filter_cons_of_neg (by simp [hx])]
      simp only [deliverAll, deliver_not_match h r x hx]
      exact ih r
    | true =>
      rw [List.filter_cons_of_pos (by simp [hx])]
      simp only [deliverAll]
      cases deliver h r x with
      | none => rfl
      | some r2 => exact ih r2

/-- C11: `OnOpenLog` and `OnDoneLog` return the stream (both ticks, best bid and best ask)
and the cache as they were and have no effects, at every offset; so a stream of log entries
gives the same ticks, cache and published messages as the stream with its open and done
entries removed. -/
theorem OnOpenLog_OnDoneLog_noop {OpenLog DoneLog : Type} (h : Helpers) (s : MatchStream)
    (c : SyncMap) (o : OpenLog) (d : DoneLog) (offset : Int) (r : Result)
    (xs : List (LogEntry OpenLog DoneLog)) :
    (OnOpenLog s c o offset).s = s ∧ (OnOpenLog s c o offset).lastTickers = c ∧
    (OnOpenLog s c o offset).effects = [] ∧
    (OnDoneLog s c d offset).s = s ∧ (OnDoneLog s c d offset).lastTickers = c ∧
    (OnDoneLog s c d offset).effects = [] ∧
    deliver h r (LogEntry.openLog o offset : LogEntry OpenLog DoneLog) = some r ∧
    deliver h r (LogEntry.doneLog d offset : LogEntry OpenLog DoneLog) = some r ∧
    deliverAll h r xs = deliverAll h r (xs.filter (fun x => x.isMatch)) :=
  ⟨rfl, rfl, rfl, rfl, rfl, rfl, deliver_not_match h r _ rfl, deliver_not_match h r _ rfl,
    deliverAll_filter h xs r⟩

/-! ## The scenario of one day and the next -/

theorem tickTime_1440 (e : MatchLog) :
    tickTime 1440 e = e.Time.unixNano / 1000000000 / 86400 * 86400 := by
  rw [tickTime_of_pos 1440 e (by decide)]
  have hw : wrapInt64 (1440 * Minute) = 86400000000000 := by decide
  rw [hw]
  simp only [unixToInternal]
  omega

/-- C12: with granularity 1440 and an absent tick, for an event at 10:00:00 UTC of some day
(price 100, size 1), one at 10:05:00 UTC of that day (price 105, size 2) and one at 10:00:00
UTC of the next day (price 90, size 1): after the first two the tick has open 100, close
105, low 100, high 105, volume 3, and after the third it has open, close, low, high 90 and
volume 1. -/
theorem refreshTicks_scenario (day : Int) (e1 e2 e3 : MatchLog)
    (t1 : e1.Time.unixNano = (86400 * day + 36000) * 1000000000)
    (t2 : e2.Time.unixNano = (86400 * day + 36300) * 1000000000)
    (t3 : e3.Time.unixNano = (86400 * (day + 1) + 36000) * 1000000000)
    (p1 : e1.Price.toRat = 100) (s1 : e1.Size.toRat = 1)
    (p2 : e2.Price.toRat = 105) (s2 : e2.Size.toRat = 2)
    (p3 : e3.Price.toRat = 90) (s3 : e3.Size.toRat = 1) :
    (∃ R : Tick, refreshTicks none 1440 [e1, e2] = some R ∧
      R.Open.toRat = 100 ∧ R.Close.toRat = 105 ∧ R.Low.toRat = 100 ∧ R.High.toRat = 105 ∧
      R.Volume.toRat = 3) ∧
    (∃ R : Tick, refreshTicks none 1440 [e1, e2, e3] = some R ∧
      R.Open.toRat = 90 ∧ R.Close.toRat = 90 ∧ R.Low.toRat = 90 ∧ R.High.toRat = 90 ∧
      R.Volume.toRat = 1) := by
  have k1 : tickTime 1440 e1 = 86400 * day := by rw [tickTime_1440, t1]; omega
  have k2 : tickTime 1440 e2 = 86400 * day := by rw [tickTime_1440, t2]; omega
  have k3 : tickTime 1440 e3 = 86400 * (day + 1) := by rw [tickTime_1440, t3]; omega
  have step2 := refreshTick_of_eq (newTick 1440 e1) 1440 e2
    (show (newTick 1440 e1).Time = tickTime 1440 e2 by simp only [newTick]; rw [k1, k2])
  have two : refreshTicks none 1440 [e1, e2] = _ := step2
  refine ⟨⟨_, two, ?_, ?_, ?_, ?_, ?_⟩, ?_⟩
  · exact p1
  · exact p2
  · show (Decimal.Min e1.Price [e2.Price]).toRat = 100
    rw [Decimal.min_pair_toRat, p1, p2]; norm_num
  · show (Decimal.Max e1.Price [e2.Price]).toRat = 105
    rw [Decimal.max_pair_toRat, p1, p2]; norm_num
  · show (e1.Size.Add e2.Size).toRat = 3
    rw [Decimal.add_toRat, s1, s2]; norm_num
  · have three : refreshTicks none 1440 [e1, e2, e3] =
        refreshTick (refreshTicks none 1440 [e1, e2]) 1440 e3 := rfl
    rw [two] at three
    rw [refreshTick_of_ne _ 1440 e3 (by
      show (newTick 1440 e1).Time ≠ tickTime 1440 e3
      simp only [newTick]; rw [k1, k3]; omega)] at three
    exact ⟨_, three, p3, p3, p3, p3, s3⟩

/-- C12 at the three sample events of 2019-06-01 and 2019-06-02 (day 18048). -/
theorem refreshTicks_scenario_witness :
    (sampleLog1.Time.unixNano = (86400 * 18048 + 36000) * 1000000000 ∧
      sampleLog2.Time.unixNano = (86400 * 18048 + 36300) * 1000000000 ∧
      sampleLog3.Time.unixNano = (86400 * (18048 + 1) + 36000) * 1000000000) ∧
    (∃ R : Tick, refreshTicks none 1440 [sampleLog1, sampleLog2] = some R ∧
      R.Open.toRat = 100 ∧ R.Close.toRat = 105 ∧ R.Low.toRat = 100 ∧ R.High.toRat = 105 ∧
      R.Volume.toRat = 3) ∧
    (∃ R : Tick, refreshTicks none 1440 [sampleLog1, sampleLog2, sampleLog3] = some R ∧
      R.Open.toRat = 90 ∧ R.Close.toRat = 90 ∧ R.Low.toRat = 90 ∧ R.High.toRat = 90 ∧
      R.Volume.toRat = 1) :=
  ⟨⟨by decide, by decide, by decide⟩,
    refreshTicks_scenario 18048 sampleLog1 sampleLog2 sampleLog3 (by decide) (by decide)
      (by decide) (by norm_num [Decimal.toRat, sampleLog1]) (by norm_num [Decimal.toRat, sampleLog1])
      (by norm_num [Decimal.toRat, sampleLog2]) (by norm_num [Decimal.toRat, sampleLog2])
      (by norm_num [Decimal.toRat, sampleLog3]) (by norm_num [Decimal.toRat, sampleLog3])⟩

/-! ## Replay -/

theorem tickTime_congr (G : Int) (a b : MatchLog) (h : a.Time.unixNano = b.Time.unixNano) :
    tickTime G a = tickTime G b := by
  simp only [tickTime, Time.UTC, Time.Truncate, Time.Unix, h]

theorem refreshTick_congr (tick : Option Tick) (G : Int) (a b : MatchLog)
    (ht : a.Time.unixNano = b.Time.unixNano) (hp : a.Price = b.Price) (hs : a.Size = b.Size)
    (hi : a.ProductId = b.ProductId) : refreshTick tick G a = refreshTick tick G b := by
  simp only [refreshTick, newTick, tickTime_congr G a b ht, hp, hs, hi]

/-- C13: two event lists that agree, event by event, on the instant, the price, the size
and the product id give the same final tick when folded by `refreshTick` from the same
starting tick (absent or not) with the same granularity; trade id, sequence, side, order ids
and the location of the time play no part. -/
theorem refreshTicks_replay (G : Int) (tick : Option Tick) (es fs : List MatchLog)
    (hagree : List.Forall₂ (fun a b : MatchLog => a.Time.unixNano = b.Time.unixNano ∧
      a.Price = b.Price ∧ a.Size = b.Size ∧ a.ProductId = b.ProductId) es fs) :
    refreshTicks tick G es = refreshTicks tick G fs := by
  induction hagree generalizing tick with
  | nil => rfl
  | cons hab _ ih =>
    simp only [refreshTicks, List.foldl_cons] at ih ⊢
    rw [refreshTick_congr tick G _ _ hab.1 hab.2.1 hab.2.2.1 hab.2.2.2]
    exact ih _

/-- C13 at the first sample event and its retelling with other bookkeeping fields. -/
theorem refreshTicks_replay_witness :
    sampleLog1 ≠ sampleLog1b ∧
    List.Forall₂ (fun a b : MatchLog => a.Time.unixNano = b.Time.unixNano ∧
      a.Price = b.Price ∧ a.Size = b.Size ∧ a.ProductId = b.ProductId)
      [sampleLog1, sampleLog2] [sampleLog1b, sampleLog2] ∧
    refreshTicks (some sampleTick) 1440 [sampleLog1, sampleLog2] =
      refreshTicks (some sampleTick) 1440 [sampleLog1b, sampleLog2] :=
  ⟨by decide,
    List.Forall₂.cons ⟨rfl, rfl, rfl, rfl⟩
      (List.Forall₂.cons ⟨rfl, rfl, rfl, rfl⟩ List.Forall₂.nil),
    refreshTicks_replay 1440 (some sampleTick) [sampleLog1, sampleLog2] [sampleLog1b, sampleLog2]
      (List.Forall₂.cons ⟨rfl, rfl, rfl, rfl⟩
        (List.Forall₂.cons ⟨rfl, rfl, rfl, rfl⟩ List.Forall₂.nil))⟩

/-! ## The order of the effects of OnMatchLog -/

/-- C14 fails: for the first sample event on a fresh stream and an empty cache the match
message is published first (position 0 of the trace) and the ticker is stored after it
(position 1); the store does not come before the publication of the match message, and
when the match message is published `getLastTicker` still returns nothing. -/
theorem OnMatchLog_store_after_match :
    ∃ r, OnMatchLog sampleHelpers sampleStream SyncMap.empty sampleLog1 0 = some r ∧
      r.effects =
        [Effect.publish "match:BTC-USDT" (Message.matchMsg
          { «Type» := "match", TradeId := 1, Sequence := 11, Time := "2019-06-01T10:00:00Z",
            ProductId := "BTC-USDT", Price := "100", Side := "buy", MakerOrderId := "7",
            TakerOrderId := "8", Size := "1" }),
          Effect.store "BTC-USDT"
          { «Type» := "ticker", TradeId := 1, Sequence := 11, Time := "2019-06-01T10:00:00Z",
            ProductId := "BTC-USDT", Price := "100", Side := "buy", LastSize := "1",
            BestBid := "99.5", BestAsk := "100.5", Open24h := "100", Low24h := "100",
            Volume24h := "1", Volume30d := "1" },
          Effect.publish "ticker:BTC-USDT" (Message.tickerMsg
          { «Type» := "ticker", TradeId := 1, Sequence := 11, Time := "2019-06-01T10:00:00Z",
            ProductId := "BTC-USDT", Price := "100", Side := "buy", LastSize := "1",
            BestBid := "99.5", BestAsk := "100.5", Open24h := "100", Low24h := "100",
            Volume24h := "1", Volume30d := "1" })] ∧
      r.effects.findIdx Effect.isMatchPublish = 0 ∧
      r.effects.findIdx Effect.isStore = 1 ∧
      ¬ (r.effects.findIdx Effect.isStore < r.effects.findIdx Effect.isMatchPublish) ∧
      getLastTicker (cacheAt SyncMap.empty r.effects 0) "BTC-USDT" = none := by
  refine ⟨_, OnMatchLog_run sampleHelpers sampleStream SyncMap.empty sampleLog1 0
    (newTick (24 * 60) sampleLog1) (newTick (30 * 24 * 60) sampleLog1) rfl rfl, ?_, ?_, ?_, ?_,
    ?_⟩
  · decide
  · decide
  · decide
  · decide
  · rfl

/-- C14 as amended: in the effect trace of `OnMatchLog` the match message is published
first, the new ticker is stored in the cache second and published third.  When the match
message is published `getLastTicker` for the product id of the event still returns what
the cache held before the call; when the ticker message is published it returns the ticker
derived from this event. -/
theorem OnMatchLog_effect_order (h : Helpers) (s : MatchStream) (c : SyncMap) (E : MatchLog)
    (offset : Int) :
    ∃ r tk, OnMatchLog h s c E offset = some r ∧
      r.effects.length = 3 ∧
      r.effects.findIdx Effect.isMatchPublish = 0 ∧
      r.effects.findIdx Effect.isStore = 1 ∧
      r.effects.findIdx Effect.isTickerPublish = 2 ∧
      r.effects[1]? = some (Effect.store E.ProductId tk) ∧
      r.effects[2]? =
        some (Effect.publish (h.TickerChannel E.ProductId) (Message.tickerMsg tk)) ∧
      getLastTicker (cacheAt c r.effects 0) E.ProductId = getLastTicker c E.ProductId ∧
      getLastTicker (cacheAt c r.effects 2) E.ProductId = some tk ∧
      r.lastTickers = cacheAt c r.effects 3 := by
  obtain ⟨t24, t30, h24, h30⟩ := TickCells.refreshed_present s.ticks (24 * 60) (30 * 24 * 60) E
  refine ⟨_, _, OnMatchLog_run h s c E offset t24 t30 h24 h30, rfl, rfl, rfl, rfl, rfl, rfl,
    rfl, ?_, rfl⟩
  exact getLastTicker_Store_same _ _ _

/-! ## Monotonicity within a bucket -/

/-- C15: for a present tick and an event of its bucket whose size is not negative, the
Volume after `refreshTick` is at least the Volume before, and larger when the size is
positive; High does not decrease and Low does not increase. -/
theorem refreshTick_monotone (T : Tick) (G : Int) (e : MatchLog) (h : tickTime G e = T.Time)
    (hs : 0 ≤ e.Size.toRat) :
    ∃ R : Tick, refreshTick (some T) G e = some R ∧
      T.Volume.toRat ≤ R.Volume.toRat ∧
      (0 < e.Size.toRat → T.Volume.toRat < R.Volume.toRat) ∧
      T.High.toRat ≤ R.High.toRat ∧ R.Low.toRat ≤ T.Low.toRat := by
  refine ⟨_, refreshTick_of_eq T G e h.symm, ?_, ?_, ?_, ?_⟩
  · show T.Volume.toRat ≤ (T.Volume.Add e.Size).toRat
    rw [Decimal.add_toRat]; linarith
  · intro hpos
    show T.Volume.toRat < (T.Volume.Add e.Size).toRat
    rw [Decimal.add_toRat]; linarith
  · show T.High.toRat ≤ (Decimal.Max T.High [e.Price]).toRat
    rw [Decimal.max_pair_toRat]; exact le_max_left _ _
  · show (Decimal.Min T.Low [e.Price]).toRat ≤ T.Low.toRat
    rw [Decimal.min_pair_toRat]; exact min_le_left _ _

/-- C15 at the second sample event, applied to the tick the first one opened. -/
theorem refreshTick_monotone_witness :
    tickTime 1440 sampleLog2 = (newTick 1440 sampleLog1).Time ∧
    0 ≤ sampleLog2.Size.toRat ∧
    ∃ R : Tick, refreshTick (some (newTick 1440 sampleLog1)) 1440 sampleLog2 = some R ∧
      (newTick 1440 sampleLog1).Volume.toRat ≤ R.Volume.toRat ∧
      (0 < sampleLog2.Size.toRat → (newTick 1440 sampleLog1).Volume.toRat < R.Volume.toRat) ∧
      (newTick 1440 sampleLog1).High.toRat ≤ R.High.toRat ∧
      R.Low.toRat ≤ (newTick 1440 sampleLog1).Low.toRat :=
  ⟨by decide, by norm_num [Decimal.toRat, sampleLog2],
    refreshTick_monotone (newTick 1440 sampleLog1) 1440 sampleLog2 (by decide)
      (by norm_num [Decimal.toRat, sampleLog2])⟩

/-! ## The two granularities -/

theorem refreshTick_close_volume (tick : Option Tick) (G : Int) (e : MatchLog) :
    ∃ R : Tick, refreshTick tick G e = some R ∧ R.Close = e.Price ∧
      (R.Volume = e.Size ∨ ∃ T, tick = some T ∧ R.Volume = T.Volume.Add e.Size) := by
  cases tick with
  | none => exact ⟨_, rfl, rfl, Or.inl rfl⟩
  | some T =>
    by_cases h : T.Time = tickTime G e
    · exact ⟨_, refreshTick_of_eq T G e h, rfl, Or.inr ⟨T, rfl, rfl⟩⟩
    · exact ⟨_, refreshTick_of_ne T G e h, rfl, Or.inl rfl⟩

/-- C16 fails when the two cells hold one and the same pointer: for a shared tick of the
bucket that starts on 2019-05-12 (volume 12) and an event of that day (size 1), whose two
bucket keys are both that bucket, the tick is updated in place twice, so both cells end
with volume 14, while `refreshTick` of the previous tick has volume 13. -/
theorem OnMatchLog_shared_tick :
    ∃ r, OnMatchLog sampleHelpers sharedStream SyncMap.empty sampleLog0 0 = some r ∧
      sharedStream.tick24h = some sharedTick ∧ sharedStream.tick30d = some sharedTick ∧
      tickTime 1440 sampleLog0 = 1557619200 ∧ tickTime 43200 sampleLog0 = 1557619200 ∧
      refreshTick sharedStream.tick24h 1440 sampleLog0 =
        some { sharedTick with Close := ⟨100, 0⟩, Volume := ⟨13, 0⟩ } ∧
      refreshTick sharedStream.tick30d 43200 sampleLog0 =
        some { sharedTick with Close := ⟨100, 0⟩, Volume := ⟨13, 0⟩ } ∧
      r.s.tick24h = some { sharedTick with Close := ⟨100, 0⟩, Volume := ⟨14, 0⟩ } ∧
      r.s.tick30d = some { sharedTick with Close := ⟨100, 0⟩, Volume := ⟨14, 0⟩ } ∧
      r.s.tick24h ≠ refreshTick sharedStream.tick24h 1440 sampleLog0 ∧
      r.s.tick30d ≠ refreshTick sharedStream.tick30d 43200 sampleLog0 := by
  refine ⟨_, OnMatchLog_run sampleHelpers sharedStream SyncMap.empty sampleLog0 0
    { sharedTick with Close := ⟨100, 0⟩, Volume := ⟨14, 0⟩ }
    { sharedTick with Close := ⟨100, 0⟩, Volume := ⟨14, 0⟩ } (by decide) (by decide),
    ?_, ?_, ?_, ?_, ?_, ?_, ?_, ?_, ?_, ?_⟩ <;> decide

/-- C16 as amended: when the two cells of the stream are separate (each nil or pointing to
a tick object of its own), after `OnMatchLog` the 24h tick is `refreshTick` of the previous
24h tick with granularity 1440 and the 30d tick is `refreshTick` of the previous 30d tick
with granularity 43200; neither changes when the previous tick of the other granularity is
replaced by anything else; both have the price of the event as Close, and as Volume either
the size of the event (fresh bucket) or the previous Volume plus that size (same bucket). -/
theorem OnMatchLog_granularities (h : Helpers) (s : MatchStream) (c : SyncMap) (E : MatchLog)
    (offset : Int) (a b : Option Tick) (hsep : s.ticks = TickCells.separate a b) :
    ∃ r t24 t30, OnMatchLog h s c E offset = some r ∧
      r.s.tick24h = refreshTick s.tick24h 1440 E ∧
      r.s.tick30d = refreshTick s.tick30d 43200 E ∧
      (∀ other : Option Tick, ∃ r2,
        OnMatchLog h { s with ticks := TickCells.separate a other } c E offset = some r2 ∧
        r2.s.tick24h = r.s.tick24h) ∧
      (∀ other : Option Tick, ∃ r2,
        OnMatchLog h { s with ticks := TickCells.separate other b } c E offset = some r2 ∧
        r2.s.tick30d = r.s.tick30d) ∧
      r.s.tick24h = some t24 ∧ t24.Close = E.Price ∧
      (t24.Volume = E.Size ∨ ∃ T, s.tick24h = some T ∧ t24.Volume = T.Volume.Add E.Size) ∧
      r.s.tick30d = some t30 ∧ t30.Close = E.Price ∧
      (t30.Volume = E.Size ∨ ∃ T, s.tick30d = some T ∧ t30.Volume = T.Volume.Add E.Size) := by
  have e24 : s.tick24h = a := by simp only [MatchStream.tick24h, hsep, TickCells.tick24h]
  have e30 : s.tick30d = b := by simp only [MatchStream.tick30d, hsep, TickCells.tick30d]
  obtain ⟨t24, h24, c24, v24⟩ := refreshTick_close_volume a (24 * 60) E
  obtain ⟨t30, h30, c30, v30⟩ := refreshTick_close_volume b (30 * 24 * 60) E
  have run : ∀ (x y : Option Tick) (tx ty : Tick), refreshTick x (24 * 60) E = some tx →
      refreshTick y (30 * 24 * 60) E = some ty →
      ∃ r2, OnMatchLog h { s with ticks := TickCells.separate x y } c E offset = some r2 ∧
        r2.s.tick24h = some tx ∧ r2.s.tick30d = some ty := by
    intro x y tx ty hx hy
    refine ⟨_, OnMatchLog_run h { s with ticks := TickCells.separate x y } c E offset tx ty ?_ ?_,
      ?_, ?_⟩
    · show (TickCells.separate (refreshTick x (24 * 60) E)
        (refreshTick y (30 * 24 * 60) E)).tick24h = some tx
      exact hx
    · show (TickCells.separate (refreshTick x (24 * 60) E)
        (refreshTick y (30 * 24 * 60) E)).tick30d = some ty
      exact hy
    · show (TickCells.separate (refreshTick x (24 * 60) E)
        (refreshTick y (30 * 24 * 60) E)).tick24h = some tx
      exact hx
    · show (TickCells.separate (refreshTick x (24 * 60) E)
        (refreshTick y (30 * 24 * 60) E)).tick30d = some ty
      exact hy
  have hs : s = { s with ticks := TickCells.separate a b } := by rw [← hsep]
  obtain ⟨r, hr, r24, r30⟩ := run a b t24 t30 h24 h30
  rw [← hs] at hr
  rw [e24, e30]
  refine ⟨r, t24, t30, hr, r24.trans h24.symm, r30.trans h30.symm, ?_, ?_, r24, c24, v24, r30,
    c30, v30⟩
  · intro other
    obtain ⟨o30, ho30⟩ := refreshTick_some other (30 * 24 * 60) E
    obtain ⟨r2, hr2, q24, _⟩ := run a other t24 o30 h24 ho30
    exact ⟨r2, hr2, q24.trans r24.symm⟩
  · intro other
    obtain ⟨o24, ho24⟩ := refreshTick_some other (24 * 60) E
    obtain ⟨r2, hr2, _, q30⟩ := run other b o24 t30 ho24 h30
    exact ⟨r2, hr2, q30.trans r30.symm⟩

/-- C16 as amended, at the sample event of 2019-05-12 and a stream whose two cells point
to two tick objects of equal content. -/
theorem OnMatchLog_granularities_witness :
    twinStream.ticks = TickCells.separate (some sharedTick) (some sharedTick) ∧
    ∃ r t24 t30, OnMatchLog sampleHelpers twinStream SyncMap.empty sampleLog0 0 = some r ∧
      r.s.tick24h = refreshTick twinStream.tick24h 1440 sampleLog0 ∧
      r.s.tick30d = refreshTick twinStream.tick30d 43200 sampleLog0 ∧
      (∀ other : Option Tick, ∃ r2,
        OnMatchLog sampleHelpers
          { twinStream with ticks := TickCells.separate (some sharedTick) other }
          SyncMap.empty sampleLog0 0 = some r2 ∧
        r2.s.tick24h = r.s.tick24h) ∧
      (∀ other : Option Tick, ∃ r2,
        OnMatchLog sampleHelpers
          { twinStream with ticks := TickCells.separate other (some sharedTick) }
          SyncMap.empty sampleLog0 0 = some r2 ∧
        r2.s.tick30d = r.s.tick30d) ∧
      r.s.tick24h = some t24 ∧ t24.Close = sampleLog0.Price ∧
      (t24.Volume = sampleLog0.Size ∨
        ∃ T, twinStream.tick24h = some T ∧ t24.Volume = T.Volume.Add sampleLog0.Size) ∧
      r.s.tick30d = some t30 ∧ t30.Close = sampleLog0.Price ∧
      (t30.Volume = sampleLog0.Size ∨
        ∃ T, twinStream.tick30d = some T ∧ t30.Volume = T.Volume.Add sampleLog0.Size) :=
  ⟨rfl,
    OnMatchLog_granularities sampleHelpers twinStream SyncMap.empty sampleLog0 0
      (some sharedTick) (some sharedTick) rfl⟩

/-! ## Construction of the stream -/

/-- C17 fails when a lookup returns a tick together with an error: the error is logged and
the tick is kept, so the tick of that granularity is not absent. -/
theorem newMatchStream_error_with_tick :
    (newMatchStream "BTC-USDT" ⟨some sampleTick, some "lookup failed"⟩ ⟨none, none⟩).1.tick24h =
      some sampleTick ∧
    (newMatchStream "BTC-USDT" ⟨some sampleTick, some "lookup failed"⟩ ⟨none, none⟩).1.tick24h ≠
      none ∧
    (newMatchStream "BTC-USDT" ⟨some sampleTick, some "lookup failed"⟩ ⟨none, none⟩).2 =
      [Effect.logError "lookup failed", Effect.registerObserver] := by
  decide

/-- C17 as amended: for all outcomes of the two lookups `newMatchStream` returns a stream
for the product id and registers it as observer exactly once, as its last effect, after
logging each error that a lookup returned.  The tick of a granularity is the tick pointer
its lookup returned: absent when the lookup returned no tick (with or without an error),
and that tick when it returned one (with or without an error). -/
theorem newMatchStream_ticks (productId : String) (r24h r30d : LastTickResult) :
    (newMatchStream productId r24h r30d).1.productId = productId ∧
    (newMatchStream productId r24h r30d).1.tick24h = r24h.tick ∧
    (newMatchStream productId r24h r30d).1.tick30d = r30d.tick ∧
    (newMatchStream productId r24h r30d).2 =
      r24h.err.toList.map Effect.logError ++ r30d.err.toList.map Effect.logError ++
        [Effect.registerObserver] ∧
    (newMatchStream productId r24h r30d).2.count Effect.registerObserver = 1 ∧
    (newMatchStream productId r24h r30d).2.getLast? = some Effect.registerObserver := by
  obtain ⟨k24, e24⟩ := r24h
  obtain ⟨k30, e30⟩ := r30d
  cases k24 <;> cases k30 <;> cases e24 <;> cases e30 <;>
    simp [newMatchStream, List.count_cons, MatchStream.tick24h, MatchStream.tick30d,
      TickCells.tick24h, TickCells.tick30d]

/-! ## Absent ticks -/

/-- C18: `OnMatchLog` succeeds for every stream, cache and event: after the two
`refreshTick` calls both ticks are present, whether the cells were separate or shared and
also when both were absent before, so the reads of their fields for the ticker message do
not meet a nil pointer. -/
theorem OnMatchLog_ticks_present (h : Helpers) (s : MatchStream) (c : SyncMap) (E : MatchLog)
    (offset : Int) :
    (∃ r t24 t30, OnMatchLog h s c E offset = some r ∧
      ((s.ticks.refresh24h (24 * 60) E).refresh30d (30 * 24 * 60) E).tick24h = some t24 ∧
      ((s.ticks.refresh24h (24 * 60) E).refresh30d (30 * 24 * 60) E).tick30d = some t30 ∧
      r.s.tick24h = some t24 ∧ r.s.tick30d = some t30 ∧
      (∀ a b, s.ticks = TickCells.separate a b →
        refreshTick s.tick24h (24 * 60) E = some t24 ∧
        refreshTick s.tick30d (30 * 24 * 60) E = some t30)) ∧
    (∃ r, OnMatchLog h { s with ticks := TickCells.separate none none } c E offset = some r ∧
      r.s.tick24h = some (newTick (24 * 60) E) ∧
      r.s.tick30d = some (newTick (30 * 24 * 60) E)) := by
  obtain ⟨t24, t30, h24, h30⟩ := TickCells.refreshed_present s.ticks (24 * 60) (30 * 24 * 60) E
  refine ⟨⟨_, t24, t30, OnMatchLog_run h s c E offset t24 t30 h24 h30, h24, h30, h24, h30, ?_⟩,
    ⟨_, OnMatchLog_run h { s with ticks := TickCells.separate none none } c E offset _ _ rfl rfl,
      rfl, rfl⟩⟩
  intro a b hsep
  rw [hsep, TickCells.refreshed_separate] at h24 h30
  simp only [MatchStream.tick24h, MatchStream.tick30d, hsep]
  exact ⟨h24, h30⟩

/-! ## The order of Low, Open, Close and High -/

/-- The order `Low <= Open <= High` and `Low <= Close <= High` is kept by every event of the
bucket of a tick. -/
theorem refreshTicks_ordered (G : Int) (es : List MatchLog) :
    ∀ T : Tick, (T.Low.toRat ≤ T.Open.toRat ∧ T.Open.toRat ≤ T.High.toRat) →
      ∃ R : Tick, refreshTicks (some T) G es = some R ∧
        (es ≠ [] → R.Low.toRat ≤ R.Close.toRat ∧ R.Close.toRat ≤ R.High.toRat) ∧
        (es = [] → R = T) ∧
        R.Low.toRat ≤ R.Open.toRat ∧ R.Open.toRat ≤ R.High.toRat := by
  induction es using List.reverseRecOn with
  | nil =>
    intro T hT
    exact ⟨T, rfl, fun hne => absurd rfl hne, fun _ => rfl, hT.1, hT.2⟩
  | append_singleton es e ih =>
    intro T hT
    obtain ⟨R, hR, _, _, hO1, hO2⟩ := ih T hT
    have hfold : refreshTicks (some T) G (es ++ [e]) = refreshTick (some R) G e := by
      simp only [refreshTicks, List.foldl_append, List.foldl_cons, List.foldl_nil] at hR ⊢
      rw [hR]
    by_cases hk : R.Time = tickTime G e
    · rw [refreshTick_of_eq R G e hk] at hfold
      refine ⟨_, hfold, fun _ => ⟨?_, ?_⟩, fun hnil => absurd hnil (by simp), ?_, ?_⟩
      · show (Decimal.Min R.Low [e.Price]).toRat ≤ e.Price.toRat
        rw [Decimal.min_pair_toRat]; exact min_le_right _ _
      · show e.Price.toRat ≤ (Decimal.Max R.High [e.Price]).toRat
        rw [Decimal.max_pair_toRat]; exact le_max_right _ _
      · show (Decimal.Min R.Low [e.Price]).toRat ≤ R.Open.toRat
        rw [Decimal.min_pair_toRat]; exact le_trans (min_le_left _ _) hO1
      · show R.Open.toRat ≤ (Decimal.Max R.High [e.Price]).toRat
        rw [Decimal.max_pair_toRat]; exact le_trans hO2 (le_max_left _ _)
    · rw [refreshTick_of_ne R G e hk] at hfold
      exact ⟨_, hfold, fun _ => ⟨le_refl _, le_refl _⟩, fun hnil => absurd hnil (by simp),
        le_refl _, le_refl _⟩

/-- C19: after every `refreshTick` call the tick satisfies `Low <= Close <= High`; it
satisfies `Low <= Open <= High` when the tick before was absent, of another bucket, or
satisfied `Low <= Open <= High`; and every tick reached from an absent tick by a non-empty
list of events satisfies both. -/
theorem refreshTick_ohlc_order (tick : Option Tick) (G : Int) (e : MatchLog)
    (es : List MatchLog) :
    (∃ R : Tick, refreshTick tick G e = some R ∧
      R.Low.toRat ≤ R.Close.toRat ∧ R.Close.toRat ≤ R.High.toRat ∧
      ((∀ T, tick = some T → T.Time = tickTime G e →
          T.Low.toRat ≤ T.Open.toRat ∧ T.Open.toRat ≤ T.High.toRat) →
        R.Low.toRat ≤ R.Open.toRat ∧ R.Open.toRat ≤ R.High.toRat)) ∧
    (∃ R : Tick, refreshTicks none G (e :: es) = some R ∧
      R.Low.toRat ≤ R.Open.toRat ∧ R.Open.toRat ≤ R.High.toRat ∧
      R.Low.toRat ≤ R.Close.toRat ∧ R.Close.toRat ≤ R.High.toRat) := by
  constructor
  · cases tick with
    | none => exact ⟨_, rfl, le_refl _, le_refl _, fun _ => ⟨le_refl _, le_refl _⟩⟩
    | some T =>
      by_cases hk : T.Time = tickTime G e
      · refine ⟨_, refreshTick_of_eq T G e hk, ?_, ?_, fun hprev => ⟨?_, ?_⟩⟩
        · show (Decimal.Min T.Low [e.Price]).toRat ≤ e.Price.toRat
          rw [Decimal.min_pair_toRat]; exact min_le_right _ _
        · show e.Price.toRat ≤ (Decimal.Max T.High [e.Price]).toRat
          rw [Decimal.max_pair_toRat]; exact le_max_right _ _
        · show (Decimal.Min T.Low [e.Price]).toRat ≤ T.Open.toRat
          rw [Decimal.min_pair_toRat]; exact le_trans (min_le_left _ _) (hprev T rfl hk).1
        · show T.Open.toRat ≤ (Decimal.Max T.High [e.Price]).toRat
          rw [Decimal.max_pair_toRat]; exact le_trans (hprev T rfl hk).2 (le_max_left _ _)
      · exact ⟨_, refreshTick_of_ne T G e hk, le_refl _, le_refl _,
          fun _ => ⟨le_refl _, le_refl _⟩⟩
  · obtain ⟨R, hR, hC, hnil, hO1, hO2⟩ :=
      refreshTicks_ordered G es (newTick G e) ⟨le_refl _, le_refl _⟩
    have hfold : refreshTicks none G (e :: es) = refreshTicks (some (newTick G e)) G es := rfl
    rw [hfold]
    refine ⟨R, hR, hO1, hO2, ?_⟩
    by_cases hes : es = []
    · rw [hnil hes]
      exact ⟨le_refl _, le_refl _⟩
    · exact hC hes

/-! ## Other products in the cache -/

/-- C20: `OnMatchLog` for an event leaves the result of `getLastTicker` as it was for every
product id other than that of the event; `getLastTicker` returns the entry of the cache
and nothing else, so a lookup changes no later lookup. -/
theorem OnMatchLog_cache_frame (h : Helpers) (s : MatchStream) (c : SyncMap) (E : MatchLog)
    (offset : Int) (J : String) (hJ : J ≠ E.ProductId) :
    ∃ r, OnMatchLog h s c E offset = some r ∧
      getLastTicker r.lastTickers J = getLastTicker c J ∧
      (∀ K : String, getLastTicker r.lastTickers K = r.lastTickers.Load K) := by
  obtain ⟨t24, t30, h24, h30⟩ := TickCells.refreshed_present s.ticks (24 * 60) (30 * 24 * 60) E
  exact ⟨_, OnMatchLog_run h s c E offset t24 t30 h24 h30,
    getLastTicker_Store_other _ _ _ _ hJ, fun K => getLastTicker_eq _ K⟩

/-- C20 at the first sample event and the product id of another pair. -/
theorem OnMatchLog_cache_frame_witness :
    "ETH-USDT" ≠ sampleLog1.ProductId ∧
    ∃ r, OnMatchLog sampleHelpers sampleStream SyncMap.empty sampleLog1 0 = some r ∧
      getLastTicker r.lastTickers "ETH-USDT" = getLastTicker SyncMap.empty "ETH-USDT" ∧
      (∀ K : String, getLastTicker r.lastTickers K = r.lastTickers.Load K) :=
  ⟨by decide,
    OnMatchLog_cache_frame sampleHelpers sampleStream SyncMap.empty sampleLog1 0 "ETH-USDT"
      (by decide)⟩

end Pushing
